import Mathlib

/-!
Shallow embedding of the Particle-Simulator core (src/src/main.cpp) and proofs
about it.  The grid is a pair of dense cell buffers plus a temperature field,
indexed by `y * width + x` exactly as in the source; coordinates are `Int`
(the C++ `int`), sizes are `Nat`.  The C++ `rand()` stream is modelled as an
explicit list of natural draws consumed in call order.
-/

namespace ParticleSim

/-- The particle kinds, in the order of the C++ `enum class Particle`. -/
inductive Particle where
  | Empty | Sand | Water | Lava | Stone | Steam | Ice | Acid | Oil | Fire | Smoke | Obsidian
deriving DecidableEq, Repr

/-- The `colors[]` table restricted to the fields the core logic uses:
particle type and serialization symbol, in source order. -/
def colorsTable : List (Particle × Char) :=
  [ (Particle.Empty,    ' '),
    (Particle.Sand,     'S'),
    (Particle.Water,    'W'),
    (Particle.Lava,     'L'),
    (Particle.Stone,    '#'),
    (Particle.Steam,    'T'),
    (Particle.Ice,      'I'),
    (Particle.Acid,     'A'),
    (Particle.Oil,      'O'),
    (Particle.Fire,     'F'),
    (Particle.Smoke,    'M'),
    (Particle.Obsidian, 'B') ]

/-- `GetSymbolForParticle`: linear scan of the table, first match, `' '` fallback. -/
def GetSymbolForParticle (p : Particle) : Char :=
  match colorsTable.find? (fun e => e.1 == p) with
  | some e => e.2
  | none => ' '

/-- `ParticleFromSymbol`: linear scan of the table by symbol, `Empty` fallback. -/
def ParticleFromSymbol (c : Char) : Particle :=
  match colorsTable.find? (fun e => e.2 == c) with
  | some e => e.1
  | none => Particle.Empty

/-- The grid store: current buffer, next buffer and temperature field, all as
dense row-major lists of length `width * height` (the C++ arrays). -/
structure ParticleGrid where
  width : Nat
  height : Nat
  grid : List Particle
  nextGrid : List Particle
  temperature : List Int
  hgrid : grid.length = width * height
  hnext : nextGrid.length = width * height
  htemp : temperature.length = width * height

/-- Row-major index `y * width + x` for in-bounds coordinates. -/
def cellIdx (w : Nat) (x y : Int) : Nat := y.toNat * w + x.toNat

/-- Out-of-bounds test used by every accessor: `x < 0 || x >= width || y < 0 || y >= height`. -/
def oob (g : ParticleGrid) (x y : Int) : Prop :=
  x < 0 ∨ (g.width : Int) ≤ x ∨ y < 0 ∨ (g.height : Int) ≤ y

instance (g : ParticleGrid) (x y : Int) : Decidable (oob g x y) := by
  unfold oob; infer_instance

/-- In-bounds coordinates (the negation of `oob`). -/
def inB (g : ParticleGrid) (x y : Int) : Prop :=
  0 ≤ x ∧ x < (g.width : Int) ∧ 0 ≤ y ∧ y < (g.height : Int)

instance (g : ParticleGrid) (x y : Int) : Decidable (inB g x y) := by
  unfold inB; infer_instance

/-- The protected boundary: bottom two rows, leftmost and rightmost columns
(the guard of `Set`). -/
def boundaryCell (g : ParticleGrid) (x y : Int) : Prop :=
  (g.height : Int) - 2 ≤ y ∨ x = 0 ∨ x = (g.width : Int) - 1

instance (g : ParticleGrid) (x y : Int) : Decidable (boundaryCell g x y) := by
  unfold boundaryCell; infer_instance

/-- `Get`: read the current buffer; out-of-bounds returns Stone. -/
def ParticleGrid.Get (g : ParticleGrid) (x y : Int) : Particle :=
  if oob g x y then Particle.Stone
  else g.grid.getD (cellIdx g.width x y) Particle.Stone

/-- `Set`: write the current buffer; silently ignores out-of-bounds targets and
the protected boundary (bottom two rows, leftmost/rightmost columns). -/
def ParticleGrid.Set (g : ParticleGrid) (x y : Int) (p : Particle) : ParticleGrid :=
  if oob g x y then g
  else if boundaryCell g x y then g
  else { g with grid := g.grid.set (cellIdx g.width x y) p,
                hgrid := by rw [List.length_set]; exact g.hgrid }

/-- Read the next buffer (model-side accessor with the same policy as `Get`). -/
def ParticleGrid.GetNext (g : ParticleGrid) (x y : Int) : Particle :=
  if oob g x y then Particle.Stone
  else g.nextGrid.getD (cellIdx g.width x y) Particle.Stone

/-- `SetNext`: write the next buffer; out-of-bounds is ignored (no boundary protection). -/
def ParticleGrid.SetNext (g : ParticleGrid) (x y : Int) (p : Particle) : ParticleGrid :=
  if oob g x y then g
  else { g with nextGrid := g.nextGrid.set (cellIdx g.width x y) p,
                hnext := by rw [List.length_set]; exact g.hnext }

/-- `GetTemperature`: out-of-bounds returns the ambient value 20. -/
def ParticleGrid.GetTemperature (g : ParticleGrid) (x y : Int) : Int :=
  if oob g x y then 20
  else g.temperature.getD (cellIdx g.width x y) 20

/-- `SetTemperature`: out-of-bounds writes are ignored. -/
def ParticleGrid.SetTemperature (g : ParticleGrid) (x y : Int) (t : Int) : ParticleGrid :=
  if oob g x y then g
  else { g with temperature := g.temperature.set (cellIdx g.width x y) t,
                htemp := by rw [List.length_set]; exact g.htemp }

/-- Raw write into the current buffer at a row-major index (the C++
`grid[i] = p`); `List.set` ignores out-of-range indices. -/
def ParticleGrid.writeCur (g : ParticleGrid) (i : Nat) (p : Particle) : ParticleGrid :=
  { g with grid := g.grid.set i p,
           hgrid := by rw [List.length_set]; exact g.hgrid }

/-- Raw write into the next buffer at a row-major index. -/
def ParticleGrid.writeNext (g : ParticleGrid) (i : Nat) (p : Particle) : ParticleGrid :=
  { g with nextGrid := g.nextGrid.set i p,
           hnext := by rw [List.length_set]; exact g.hnext }

/-- `CreateGround`: stamp the bottom two rows and, for `y < height - 1`, the
leftmost and rightmost columns of the current buffer with Stone. -/
def ParticleGrid.CreateGround (g : ParticleGrid) : ParticleGrid :=
  let g1 := (List.range g.width).foldl (fun a x =>
    (a.writeCur ((g.height - 1) * g.width + x) Particle.Stone).writeCur
      ((g.height - 2) * g.width + x) Particle.Stone) g
  (List.range (g.height - 1)).foldl (fun a y =>
    (a.writeCur (y * g.width + 0) Particle.Stone).writeCur
      (y * g.width + (g.width - 1)) Particle.Stone) g1

/-- `CreateGroundNext`: the same stamping into the next buffer. -/
def ParticleGrid.CreateGroundNext (g : ParticleGrid) : ParticleGrid :=
  let g1 := (List.range g.width).foldl (fun a x =>
    (a.writeNext ((g.height - 1) * g.width + x) Particle.Stone).writeNext
      ((g.height - 2) * g.width + x) Particle.Stone) g
  (List.range (g.height - 1)).foldl (fun a y =>
    (a.writeNext (y * g.width + 0) Particle.Stone).writeNext
      (y * g.width + (g.width - 1)) Particle.Stone) g1

/-- `Clear`: every cell of both buffers becomes Empty, every temperature the
ambient 20, then the ground and walls are re-stamped into the current buffer. -/
def ParticleGrid.Clear (g : ParticleGrid) : ParticleGrid :=
  ParticleGrid.CreateGround
    { width := g.width, height := g.height,
      grid := List.replicate (g.width * g.height) Particle.Empty,
      nextGrid := List.replicate (g.width * g.height) Particle.Empty,
      temperature := List.replicate (g.width * g.height) 20,
      hgrid := List.length_replicate _ _,
      hnext := List.length_replicate _ _,
      htemp := List.length_replicate _ _ }

/-- The constructor `ParticleGrid(w, h, state)`: zero-initialised buffers
(`Empty` cells, temperature 0), then `Clear()` and `CreateGround()`. -/
def mkGrid (w h : Nat) : ParticleGrid :=
  ParticleGrid.CreateGround (ParticleGrid.Clear
    { width := w, height := h,
      grid := List.replicate (w * h) Particle.Empty,
      nextGrid := List.replicate (w * h) Particle.Empty,
      temperature := List.replicate (w * h) 0,
      hgrid := List.length_replicate _ _,
      hnext := List.length_replicate _ _,
      htemp := List.length_replicate _ _ })

/-! ## Persistence (`SaveToFile` / `LoadFromFile`)

The file is modelled as its list of lines, each line a list of characters. -/

/-- One saved row: the symbol of every cell of row `y`, columns `0..width-1`. -/
def ParticleGrid.rowSymbols (g : ParticleGrid) (y : Int) : List Char :=
  (List.range g.width).map fun (x : Nat) => GetSymbolForParticle (g.Get (x : Int) y)

/-- `SaveToFile`: two `#`-comment header lines, then one symbol row per grid row. -/
def ParticleGrid.SaveToFile (g : ParticleGrid) : List (List Char) :=
  ("# Particle Simulator Save File".toList) ::
  (("# Width: " ++ toString g.width ++ " Height: " ++ toString g.height).toList) ::
  (List.range g.height).map fun (y : Nat) => g.rowSymbols (y : Int)

/-- One loaded row: for `x < min (line length) width`, boundary positions are
written as Stone and the rest as the symbol's particle, through `Set`. -/
def loadRow (g : ParticleGrid) (line : List Char) (y : Int) : ParticleGrid :=
  (List.range (min line.length g.width)).foldl (fun (a : ParticleGrid) (x : Nat) =>
    let p := ParticleFromSymbol (line.getD x ' ')
    if (a.height : Int) - 2 ≤ y ∨ (x : Int) = 0 ∨ (x : Int) = (a.width : Int) - 1 then
      a.Set (x : Int) y Particle.Stone
    else
      a.Set (x : Int) y p) g

/-- The `getline` loop of `LoadFromFile`: empty lines and lines starting with
`'#'` are skipped; other lines fill row `y` and advance it; reading stops once
`y` reaches `height`. -/
def loadLines : ParticleGrid → List (List Char) → Int → ParticleGrid
  | g, [], _ => g
  | g, line :: rest, y =>
    if (g.height : Int) ≤ y then g
    else if line = [] ∨ line.headD ' ' = '#' then loadLines g rest y
    else loadLines (loadRow g line y) rest (y + 1)

/-- `LoadFromFile`: `Clear()` first, then consume the lines. -/
def ParticleGrid.LoadFromFile (g : ParticleGrid) (lines : List (List Char)) : ParticleGrid :=
  loadLines g.Clear lines 0

/-! ## Brush placement (`AddParticle`) -/

/-- The per-type initial temperature stamped by `AddParticle`. -/
def initTemp (p : Particle) : Int :=
  match p with
  | Particle.Lava => 1000
  | Particle.Fire => 1000
  | Particle.Ice => -10
  | Particle.Steam => 100
  | _ => 20

/-- The loop range `-r..r` of the brush, empty when `r < 0`. -/
def offsRange (r : Int) : List Int :=
  (List.range (2 * r + 1).toNat).map fun (i : Nat) => (i : Int) - r

/-- The body of the `AddParticle` double loop at offset `(dx, dy)` with target
`(x + dx, y + dy)`: test the circle, the paintable interior and the overwrite
rule, then write cell and initial temperature. -/
def brushStep (x y : Int) (p : Particle) (r : Int) (a2 : ParticleGrid) (dx dy : Int) :
    ParticleGrid :=
  if dx * dx + dy * dy ≤ r * r then
    if 0 < x + dx ∧ x + dx < (a2.width : Int) - 1 ∧ 0 ≤ y + dy ∧ y + dy < (a2.height : Int) - 2
    then
      if p = Particle.Empty ∨ a2.Get (x + dx) (y + dy) = Particle.Empty ∨
          a2.Get (x + dx) (y + dy) = Particle.Steam then
        (a2.Set (x + dx) (y + dy) p).SetTemperature (x + dx) (y + dy) (initTemp p)
      else a2
    else a2
  else a2

/-- `AddParticle`: circular brush of radius `brush / 2` around `(x, y)`;
each in-circle target strictly inside the walls and above the floor is written
(and temperature-stamped) when it is Empty or Steam or when erasing. -/
def ParticleGrid.AddParticle (g : ParticleGrid) (x y : Int) (p : Particle) (brush : Int) :
    ParticleGrid :=
  (offsRange (Int.tdiv brush 2)).foldl (fun a dy =>
    (offsRange (Int.tdiv brush 2)).foldl
      (fun a2 dx => brushStep x y p (Int.tdiv brush 2) a2 dx dy) a) g

/-! ## The tick: reactions, movement, temperature diffusion -/

/-- Mid-tick state: the grid store plus the remaining `rand()` stream. -/
structure TickState where
  g : ParticleGrid
  rng : List Nat

/-- One `rand()` call: pop the next draw (0 when the stream is exhausted). -/
def randNext (ts : TickState) : Nat × TickState :=
  (ts.rng.headD 0, { ts with rng := ts.rng.tail })

/-- Write the next buffer inside a tick. -/
def TickState.setNextT (ts : TickState) (x y : Int) (p : Particle) : TickState :=
  { ts with g := ts.g.SetNext x y p }

/-- Write the temperature field inside a tick. -/
def TickState.setTempT (ts : TickState) (x y : Int) (t : Int) : TickState :=
  { ts with g := ts.g.SetTemperature x y t }

/-- The fixed 8-neighbor offsets `(dx, dy)` in the C++ loop order
(`dy` outer from -1 to 1, `dx` inner from -1 to 1, skipping `(0,0)`). -/
def neighborOffsets : List (Int × Int) :=
  [(-1, -1), (0, -1), (1, -1), (-1, 0), (1, 0), (-1, 1), (0, 1), (1, 1)]

/-- `CheckNeighbor`: does any of the 8 neighbors hold `target` in the current buffer? -/
def ParticleGrid.CheckNeighbor (g : ParticleGrid) (x y : Int) (target : Particle) : Bool :=
  neighborOffsets.any fun o => g.Get (x + o.1) (y + o.2) == target

/-- `ReplaceNeighbor`: rewrite the first neighbor (in scan order) holding
`target` to `replacement` in the next buffer. -/
def TickState.ReplaceNeighbor (ts : TickState) (x y : Int) (target replacement : Particle) :
    TickState :=
  match neighborOffsets.find? (fun o => ts.g.Get (x + o.1) (y + o.2) == target) with
  | some o => ts.setNextT (x + o.1) (y + o.2) replacement
  | none => ts

/-- The Acid reaction loop: each interior Sand/Ice neighbor (in scan order) is
dissolved to Empty; after each dissolution a 1-in-8 draw may consume the acid,
which stops the scan and reports a reaction. -/
def acidScan : TickState → Int → Int → List (Int × Int) → Bool × TickState
  | ts, _, _, [] => (false, ts)
  | ts, x, y, o :: rest =>
    let nx := x + o.1
    let ny := y + o.2
    if 0 < nx ∧ nx < (ts.g.width : Int) - 1 ∧ 0 < ny ∧ ny < (ts.g.height : Int) - 2 then
      let nb := ts.g.Get nx ny
      if nb = Particle.Sand ∨ nb = Particle.Ice then
        let ts1 := ts.setNextT nx ny Particle.Empty
        let rs := randNext ts1
        if rs.1 % 8 = 0 then (true, rs.2.setNextT x y Particle.Empty)
        else acidScan rs.2 x y rest
      else acidScan ts x y rest
    else acidScan ts x y rest

/-- `ProcessReactions`: type-keyed chemical/thermal transformations, evaluated
before movement; `true` means the cell was consumed by a reaction this tick. -/
def ProcessReactions (ts : TickState) (x y : Int) : Bool × TickState :=
  match ts.g.Get x y with
  | Particle.Lava =>
    if ts.g.CheckNeighbor x y Particle.Water then
      (true, (ts.setNextT x y Particle.Obsidian).ReplaceNeighbor x y Particle.Water Particle.Steam)
    else if ts.g.GetTemperature x y < 500 then
      (true, ts.setNextT x y Particle.Stone)
    else (false, ts)
  | Particle.Water =>
    if ts.g.CheckNeighbor x y Particle.Lava || ts.g.CheckNeighbor x y Particle.Fire ||
        decide (100 < ts.g.GetTemperature x y) then
      (true, ts.setNextT x y Particle.Steam)
    else if ts.g.GetTemperature x y < 0 then
      (true, ts.setNextT x y Particle.Ice)
    else (false, ts)
  | Particle.Ice =>
    if decide (0 < ts.g.GetTemperature x y) || ts.g.CheckNeighbor x y Particle.Lava ||
        ts.g.CheckNeighbor x y Particle.Fire then
      (true, ts.setNextT x y Particle.Water)
    else (false, ts)
  | Particle.Steam =>
    if ts.g.GetTemperature x y < 50 then
      let rs := randNext ts
      if rs.1 % 20 = 0 then (true, rs.2.setNextT x y Particle.Water)
      else (false, rs.2)
    else (false, ts)
  | Particle.Fire =>
    if ts.g.CheckNeighbor x y Particle.Oil then
      let ts1 := ts.ReplaceNeighbor x y Particle.Oil Particle.Fire
      let rs := randNext ts1
      if rs.1 % 30 = 0 then (true, rs.2.setNextT x y Particle.Smoke)
      else (false, rs.2)
    else if ts.g.CheckNeighbor x y Particle.Water then
      (true, (ts.setNextT x y Particle.Smoke).ReplaceNeighbor x y Particle.Water Particle.Steam)
    else
      let rs := randNext ts
      if rs.1 % 50 = 0 then (true, rs.2.setNextT x y Particle.Smoke)
      else (false, rs.2)
  | Particle.Acid => acidScan ts x y neighborOffsets
  | Particle.Oil =>
    if ts.g.CheckNeighbor x y Particle.Fire || ts.g.CheckNeighbor x y Particle.Lava then
      (true, ts.setNextT x y Particle.Fire)
    else (false, ts)
  | _ => (false, ts)

/-- `CanMoveDown`: the cell below is Empty, or is Steam while the mover is a liquid. -/
def CanMoveDown (g : ParticleGrid) (x y : Int) : Bool :=
  let below := g.Get x (y + 1)
  let current := g.Get x y
  if below == Particle.Empty then true
  else if below == Particle.Steam &&
      (current == Particle.Water || current == Particle.Lava ||
       current == Particle.Acid || current == Particle.Oil) then true
  else false

/-- `CanMoveSide`: the side cell is Empty or Steam. -/
def CanMoveSide (g : ParticleGrid) (x y dir : Int) : Bool :=
  let side := g.Get (x + dir) y
  side == Particle.Empty || side == Particle.Steam

/-- The C++ `(rand() % 2) ? 1 : -1` direction draw. -/
def randDir (r : Nat) : Int := if r % 2 ≠ 0 then 1 else -1

/-- `UpdateSand`: fall straight down (swapping with Steam), else try a random
diagonal and then the opposite one, else stay. -/
def UpdateSand (ts : TickState) (x y : Int) : TickState :=
  if CanMoveDown ts.g x y then
    let ts1 := ts.setNextT x (y + 1) Particle.Sand
    if ts.g.Get x (y + 1) == Particle.Steam then ts1.setNextT x y Particle.Steam
    else ts1.setNextT x y Particle.Empty
  else
    let rs := randNext ts
    let dir := randDir rs.1
    let ts0 := rs.2
    if ts0.g.Get (x + dir) (y + 1) == Particle.Empty ||
        ts0.g.Get (x + dir) (y + 1) == Particle.Steam then
      let ts1 := ts0.setNextT (x + dir) (y + 1) Particle.Sand
      if ts0.g.Get (x + dir) (y + 1) == Particle.Steam then ts1.setNextT x y Particle.Steam
      else ts1.setNextT x y Particle.Empty
    else if ts0.g.Get (x - dir) (y + 1) == Particle.Empty ||
        ts0.g.Get (x - dir) (y + 1) == Particle.Steam then
      let ts1 := ts0.setNextT (x - dir) (y + 1) Particle.Sand
      if ts0.g.Get (x - dir) (y + 1) == Particle.Steam then ts1.setNextT x y Particle.Steam
      else ts1.setNextT x y Particle.Empty
    else ts0

/-- `UpdateWater`: fall (swapping with Steam), else side flow in a random
direction and then the opposite; a sideways move always empties the origin. -/
def UpdateWater (ts : TickState) (x y : Int) : TickState :=
  if CanMoveDown ts.g x y then
    let ts1 := ts.setNextT x (y + 1) Particle.Water
    if ts.g.Get x (y + 1) == Particle.Steam then ts1.setNextT x y Particle.Steam
    else ts1.setNextT x y Particle.Empty
  else
    let rs := randNext ts
    let dir := randDir rs.1
    let ts0 := rs.2
    if CanMoveSide ts0.g x y dir then
      (ts0.setNextT (x + dir) y Particle.Water).setNextT x y Particle.Empty
    else if CanMoveSide ts0.g x y (-dir) then
      (ts0.setNextT (x - dir) y Particle.Water).setNextT x y Particle.Empty
    else ts0

/-- `UpdateLava`: the liquid rule with forced temperature 1000 at the
destination and (always) at the origin. -/
def UpdateLava (ts : TickState) (x y : Int) : TickState :=
  let tsA :=
    if CanMoveDown ts.g x y then
      let ts1 := (ts.setNextT x (y + 1) Particle.Lava).setTempT x (y + 1) 1000
      if ts.g.Get x (y + 1) == Particle.Steam then ts1.setNextT x y Particle.Steam
      else ts1.setNextT x y Particle.Empty
    else
      let rs := randNext ts
      let dir := randDir rs.1
      let ts0 := rs.2
      if CanMoveSide ts0.g x y dir then
        ((ts0.setNextT (x + dir) y Particle.Lava).setTempT (x + dir) y 1000).setNextT x y
          Particle.Empty
      else if CanMoveSide ts0.g x y (-dir) then
        ((ts0.setNextT (x - dir) y Particle.Lava).setTempT (x - dir) y 1000).setNextT x y
          Particle.Empty
      else ts0
  tsA.setTempT x y 1000

/-- `UpdateSteam`: rise into Empty, else random side into Empty, else the
opposite side, else a 1-in-100 draw dissipates it. -/
def UpdateSteam (ts : TickState) (x y : Int) : TickState :=
  if ts.g.Get x (y - 1) == Particle.Empty then
    (ts.setNextT x (y - 1) Particle.Steam).setNextT x y Particle.Empty
  else
    let rs := randNext ts
    let dir := randDir rs.1
    let ts0 := rs.2
    if ts0.g.Get (x + dir) y == Particle.Empty then
      (ts0.setNextT (x + dir) y Particle.Steam).setNextT x y Particle.Empty
    else if ts0.g.Get (x - dir) y == Particle.Empty then
      (ts0.setNextT (x - dir) y Particle.Steam).setNextT x y Particle.Empty
    else
      let rs2 := randNext ts0
      if rs2.1 % 100 = 0 then rs2.2.setNextT x y Particle.Empty
      else rs2.2

/-- `UpdateAcid`: the liquid rule (fall swaps with Steam, side flow destroys it). -/
def UpdateAcid (ts : TickState) (x y : Int) : TickState :=
  if CanMoveDown ts.g x y then
    let ts1 := ts.setNextT x (y + 1) Particle.Acid
    if ts.g.Get x (y + 1) == Particle.Steam then ts1.setNextT x y Particle.Steam
    else ts1.setNextT x y Particle.Empty
  else
    let rs := randNext ts
    let dir := randDir rs.1
    let ts0 := rs.2
    if CanMoveSide ts0.g x y dir then
      (ts0.setNextT (x + dir) y Particle.Acid).setNextT x y Particle.Empty
    else if CanMoveSide ts0.g x y (-dir) then
      (ts0.setNextT (x - dir) y Particle.Acid).setNextT x y Particle.Empty
    else ts0

/-- `UpdateOil`: the liquid rule behind a 1-in-2 movement gate. -/
def UpdateOil (ts : TickState) (x y : Int) : TickState :=
  let rs := randNext ts
  let ts0 := rs.2
  if rs.1 % 2 = 0 then
    if CanMoveDown ts0.g x y then
      let ts1 := ts0.setNextT x (y + 1) Particle.Oil
      if ts0.g.Get x (y + 1) == Particle.Steam then ts1.setNextT x y Particle.Steam
      else ts1.setNextT x y Particle.Empty
    else
      let rs2 := randNext ts0
      let dir := randDir rs2.1
      let ts2 := rs2.2
      if CanMoveSide ts2.g x y dir then
        (ts2.setNextT (x + dir) y Particle.Oil).setNextT x y Particle.Empty
      else if CanMoveSide ts2.g x y (-dir) then
        (ts2.setNextT (x - dir) y Particle.Oil).setNextT x y Particle.Empty
      else ts2
  else ts0

/-- `UpdateFire`: gated rise, else gated lateral spread; the origin is emptied
only if it moved, and its temperature is forced to 800 every tick. -/
def UpdateFire (ts : TickState) (x y : Int) : TickState :=
  let m1 :=
    if ts.g.Get x (y - 1) == Particle.Empty then
      let rs := randNext ts
      if rs.1 % 3 = 0 then
        (true, (rs.2.setNextT x (y - 1) Particle.Fire).setTempT x (y - 1) 800)
      else (false, rs.2)
    else (false, ts)
  let m2 :=
    if !m1.1 then
      let rs := randNext m1.2
      if rs.1 % 4 = 0 then
        let rs2 := randNext rs.2
        let dir := randDir rs2.1
        if rs2.2.g.Get (x + dir) y == Particle.Empty then
          (true, (rs2.2.setNextT (x + dir) y Particle.Fire).setTempT (x + dir) y 800)
        else (false, rs2.2)
      else (false, rs.2)
    else m1
  let tsC := if m2.1 then m2.2.setNextT x y Particle.Empty else m2.2
  tsC.setTempT x y 800

/-- `UpdateSmoke`: gated rise, else a left/none/right dispersion draw with a
1-in-4 gate; independently a 1-in-80 draw dissipates it. -/
def UpdateSmoke (ts : TickState) (x y : Int) : TickState :=
  let sideTry := fun (t : TickState) =>
    let rs := randNext t
    let dir : Int := (rs.1 % 3 : Nat) - 1
    if dir ≠ 0 ∧ rs.2.g.Get (x + dir) y == Particle.Empty then
      let rs2 := randNext rs.2
      if rs2.1 % 4 = 0 then
        (rs2.2.setNextT (x + dir) y Particle.Smoke).setNextT x y Particle.Empty
      else rs2.2
    else rs.2
  let tsA :=
    if ts.g.Get x (y - 1) == Particle.Empty then
      let rs := randNext ts
      if rs.1 % 3 = 0 then
        (rs.2.setNextT x (y - 1) Particle.Smoke).setNextT x y Particle.Empty
      else sideTry rs.2
    else sideTry ts
  let rs3 := randNext tsA
  if rs3.1 % 80 = 0 then rs3.2.setNextT x y Particle.Empty
  else rs3.2

/-- One cell of the per-tick scan: skip Empty, consult the reaction engine,
then dispatch movement by type (Ice, Stone and Obsidian are immobile). -/
def processCell (ts : TickState) (x y : Int) : TickState :=
  let p := ts.g.Get x y
  if p = Particle.Empty then ts
  else
    let fr := ProcessReactions ts x y
    if fr.1 then fr.2
    else
      match p with
      | Particle.Sand => UpdateSand fr.2 x y
      | Particle.Water => UpdateWater fr.2 x y
      | Particle.Lava => UpdateLava fr.2 x y
      | Particle.Steam => UpdateSteam fr.2 x y
      | Particle.Acid => UpdateAcid fr.2 x y
      | Particle.Oil => UpdateOil fr.2 x y
      | Particle.Fire => UpdateFire fr.2 x y
      | Particle.Smoke => UpdateSmoke fr.2 x y
      | _ => fr.2

/-- Nested coordinate list: outer rows, inner columns. -/
def prodRows (ys xs : List Int) : List (Int × Int) :=
  ys.foldr (fun y acc => (xs.map fun x => (x, y)) ++ acc) []

/-- Scanned columns `1..width-2`. -/
def colList (w : Nat) : List Int := (List.range (w - 2)).map fun (i : Nat) => (i : Int) + 1

/-- Scanned rows `height-3` down to `0`. -/
def rowListRev (h : Nat) : List Int := ((List.range (h - 2)).reverse).map fun (i : Nat) => (i : Int)

/-- The movement/reaction scan order: bottom row first, left to right. -/
def moveCoords (w h : Nat) : List (Int × Int) := prodRows (rowListRev h) (colList w)

/-- Run the per-cell scan over a coordinate list. -/
def runScan (ts : TickState) (cs : List (Int × Int)) : TickState :=
  cs.foldl (fun a c => processCell a c.1 c.2) ts

/-- The value `UpdateTemperature` computes for one cell: the truncated mean of
its own temperature and its non-Empty neighbors' temperatures, then relaxed one
unit toward ambient 20. -/
def diffusedValue (g : ParticleGrid) (x y : Int) : Int :=
  let acc := neighborOffsets.foldl (fun (acc : Int × Int) o =>
    if g.Get (x + o.1) (y + o.2) ≠ Particle.Empty then
      (acc.1 + g.GetTemperature (x + o.1) (y + o.2), acc.2 + 1)
    else acc) (g.GetTemperature x y, 1)
  let newTemp := Int.tdiv acc.1 acc.2
  let newTemp1 := if 20 < newTemp then max 20 (newTemp - 1) else newTemp
  if newTemp1 < 20 then min 20 (newTemp1 + 1) else newTemp1

/-- One cell of the diffusion pass: non-Empty cells get `diffusedValue`. -/
def diffuseCell (g : ParticleGrid) (x y : Int) : ParticleGrid :=
  if g.Get x y = Particle.Empty then g
  else g.SetTemperature x y (diffusedValue g x y)

/-- Diffusion scan rows/columns `1..height-2` / `1..width-2`, ascending. -/
def tempRows (h : Nat) : List Int := (List.range (h - 2)).map fun (i : Nat) => (i : Int) + 1

/-- The diffusion scan order: row-major over the interior margin. -/
def tempCoords (w h : Nat) : List (Int × Int) := prodRows (tempRows h) (colList w)

/-- `UpdateTemperature`: sequential in-place diffusion over the interior margin. -/
def ParticleGrid.UpdateTemperature (g : ParticleGrid) : ParticleGrid :=
  (tempCoords g.width g.height).foldl (fun a c => diffuseCell a c.1 c.2) g

/-- The end-of-tick `std::swap(grid, nextGrid)`. -/
def ParticleGrid.swapBuffers (g : ParticleGrid) : ParticleGrid :=
  { g with grid := g.nextGrid, nextGrid := g.grid, hgrid := g.hnext, hnext := g.hgrid }

/-- One executed tick: copy current into next, re-stamp the boundary, scan all
interior cells bottom-up, diffuse temperature, swap buffers. -/
def doTick (g : ParticleGrid) (rng : List Nat) : ParticleGrid :=
  let g1 : ParticleGrid := { g with nextGrid := g.grid, hnext := g.hgrid }
  let g2 := g1.CreateGroundNext
  let ts := runScan { g := g2, rng := rng } (moveCoords g.width g.height)
  ts.g.UpdateTemperature.swapBuffers

/-! ## The frame gate (`Update`) -/

/-- The clock state the grid store reads: pause flag, time-scale multiplier and
frame counter. -/
structure GameState where
  isPaused : Bool
  timeSpeed : ℚ
  frameCounter : Int

/-- `std::max(1, (int)(1.0f / timeSpeed))`: the frame-skip divisor. -/
def skipFrames (q : ℚ) : Int := max 1 ⌊(1 : ℚ) / q⌋

/-- `Update`: no-op when paused; otherwise advance the frame counter and run a
tick only when it is a multiple of the skip divisor. -/
def ParticleGrid.Update (g : ParticleGrid) (gs : GameState) (rng : List Nat) :
    ParticleGrid × GameState :=
  if gs.isPaused then (g, gs)
  else
    let gs1 : GameState := { gs with frameCounter := gs.frameCounter + 1 }
    if Int.emod gs1.frameCounter (skipFrames gs.timeSpeed) ≠ 0 then (g, gs1)
    else (doTick g rng, gs1)

/-! ## Derived observations and concrete states used by the theorems -/

/-- The flattened brush offset list, outer `dy`, inner `dx`. -/
def brushOffsets (r : Int) : List (Int × Int) := prodRows (offsRange r) (offsRange r)

/-- The condition under which `AddParticle` writes target `(tx, ty)`:
inside the circle, inside the paintable interior, and Empty/Steam/erase. -/
def brushWrites (g : ParticleGrid) (x y : Int) (p : Particle) (r : Int) (tx ty : Int) : Prop :=
  (tx - x) * (tx - x) + (ty - y) * (ty - y) ≤ r * r ∧
  0 < tx ∧ tx < (g.width : Int) - 1 ∧ 0 ≤ ty ∧ ty < (g.height : Int) - 2 ∧
  (p = Particle.Empty ∨ g.Get tx ty = Particle.Empty ∨ g.Get tx ty = Particle.Steam)

instance (g : ParticleGrid) (x y : Int) (p : Particle) (r tx ty : Int) :
    Decidable (brushWrites g x y p r tx ty) := by
  unfold brushWrites; infer_instance

/-- Number of Sand cells in the current buffer. -/
def sandCount (g : ParticleGrid) : Nat := g.grid.countP (fun p => p == Particle.Sand)

/-- Number of Steam cells in the next buffer. -/
def steamCountNext (g : ParticleGrid) : Nat := g.nextGrid.countP (fun p => p == Particle.Steam)

/-- The `rand()` draw that decides a liquid's side-flow direction: for Oil it
is the second draw (after the 1-in-2 movement gate), otherwise the first. -/
def dirDraw (ts : TickState) (p : Particle) : Nat :=
  if p = Particle.Oil then ts.rng.tail.headD 0 else ts.rng.headD 0

/-- The per-type movement rule of the four liquids. -/
def liquidUpdate (p : Particle) (ts : TickState) (x y : Int) : TickState :=
  match p with
  | Particle.Water => UpdateWater ts x y
  | Particle.Acid => UpdateAcid ts x y
  | Particle.Lava => UpdateLava ts x y
  | Particle.Oil => UpdateOil ts x y
  | _ => ts

/-- Iterated `Update`, one `rand()` stream per frame. -/
def runUpdates : ParticleGrid → GameState → List (List Nat) → ParticleGrid × GameState
  | g, gs, [] => (g, gs)
  | g, gs, rng :: rest =>
    let r := g.Update gs rng
    runUpdates r.1 r.2 rest

/-- A 6×6 grid as the simulation constructs it. -/
def g66 : ParticleGrid := mkGrid 6 6

/-- The default clock: running, speed 1, counter 0. -/
def gs0 : GameState := { isPaused := false, timeSpeed := 1, frameCounter := 0 }

/-- C1 state: a 6×6 grid with one Sand cell at (2, 2). -/
def gSave : ParticleGrid := g66.Set 2 2 Particle.Sand

/-- C2 counterexample state: two Sand columns at x = 1 and x = 3 whose upper
grains can both fall diagonally into the empty cell (2, 3). -/
def gSand4 : ParticleGrid :=
  (((g66.Set 1 3 Particle.Sand).Set 3 3 Particle.Sand).Set 1 2 Particle.Sand).Set 3 2
    Particle.Sand

/-- C5 counterexample clock: speed 3/4, so the code's divisor is
`max 1 ⌊4/3⌋ = 1` while the claim's `⌈4/3⌉` is 2. -/
def gsSlow : GameState := { isPaused := false, timeSpeed := 3 / 4, frameCounter := 0 }

/-- C5 counterexample state: one airborne Sand cell at (2, 1). -/
def gFall : ParticleGrid := g66.Set 2 1 Particle.Sand

/-- C4 counterexample state: an Ice cell at (1, 0) — in bounds and non-Empty,
but in row 0, which the diffusion loop never visits — at temperature −10. -/
def gIceTop : ParticleGrid := ((g66.Set 1 0 Particle.Ice).SetTemperature 1 0 (-10))

/-- The prefix of the 6×6 diffusion scan order before cell (2, 2). -/
def preC4 : List (Int × Int) := [(1, 1), (2, 1), (3, 1), (4, 1), (1, 2)]

/-- The suffix of the 6×6 diffusion scan order after cell (2, 2). -/
def postC4 : List (Int × Int) :=
  [(3, 2), (4, 2), (1, 3), (2, 3), (3, 3), (4, 3), (1, 4), (2, 4), (3, 4), (4, 4)]

/-- C7 counterexample state: Acid at (2, 1) with an Ice neighbor at (2, 0)
(row 0, hence outside the dissolution guard `ny > 0`) and Stone below. -/
def gAcidIce : ParticleGrid :=
  (((g66.Set 2 1 Particle.Acid).Set 2 0 Particle.Ice).SetTemperature 2 0 (-10)).Set 2 2
    Particle.Stone

/-- C10 witness state: Water at (2, 2) sitting on Stone with Steam to its
right, the next buffer a fresh copy of the current one, and a draw that picks
direction +1. -/
def tsC10 : TickState :=
  { g := { ((g66.Set 2 2 Particle.Water).Set 3 2 Particle.Steam).Set 2 3 Particle.Stone with
      nextGrid := (((g66.Set 2 2 Particle.Water).Set 3 2 Particle.Steam).Set 2 3
        Particle.Stone).grid,
      hnext := (((g66.Set 2 2 Particle.Water).Set 3 2 Particle.Steam).Set 2 3
        Particle.Stone).hgrid },
    rng := [1] }

/-- C6 state: Lava at (2, 3) resting on the floor with Water at (3, 3). -/
def gLavaWater : ParticleGrid := (g66.Set 2 3 Particle.Lava).Set 3 3 Particle.Water

/-- C6 witness tick state over `gLavaWater`. -/
def tsC6 : TickState := { g := gLavaWater, rng := [] }

/-- Whether one acid-scan offset dissolves: the neighbor lies strictly inside
the interior margin (`0 < nx < width-1`, `0 < ny < height-2`) and holds Sand
or Ice. -/
def acidDissolves (g : ParticleGrid) (x y : Int) (o : Int × Int) : Bool :=
  decide (0 < x + o.1 ∧ x + o.1 < (g.width : Int) - 1 ∧ 0 < y + o.2 ∧
    y + o.2 < (g.height : Int) - 2) &&
  (g.Get (x + o.1) (y + o.2) == Particle.Sand || g.Get (x + o.1) (y + o.2) == Particle.Ice)

/-- Whether some offset of `offs` dissolves cell `(tx, ty)` around acid `(x, y)`. -/
def acidTargetedIn (offs : List (Int × Int)) (g : ParticleGrid) (x y tx ty : Int) : Bool :=
  offs.any fun o => acidDissolves g x y o && decide (tx = x + o.1 ∧ ty = y + o.2)

/-- Whether the full 8-offset acid scan dissolves cell `(tx, ty)`. -/
def acidTargeted (g : ParticleGrid) (x y tx ty : Int) : Bool :=
  acidTargetedIn neighborOffsets g x y tx ty

/-- C7 abort-demo state: Acid at (2, 2) with Sand at (1, 1) (first offset) and
Sand at (3, 3) (last offset), next buffer a copy, first draw hits 1-in-8. -/
def tsAbort : TickState :=
  { g := { ((g66.Set 2 2 Particle.Acid).Set 1 1 Particle.Sand).Set 3 3 Particle.Sand with
      nextGrid := (((g66.Set 2 2 Particle.Acid).Set 1 1 Particle.Sand).Set 3 3
        Particle.Sand).grid,
      hnext := (((g66.Set 2 2 Particle.Acid).Set 1 1 Particle.Sand).Set 3 3
        Particle.Sand).hgrid },
    rng := [0] }

/-- C7 counterexample tick state over `gAcidIce`, next buffer a copy. -/
def tsIce : TickState :=
  { g := { gAcidIce with nextGrid := gAcidIce.grid, hnext := gAcidIce.hgrid },
    rng := [1] }

/-- C7 witness tick state: the `tsAbort` grid with eight failing draws. -/
def tsC7 : TickState :=
  { g := tsAbort.g, rng := [1, 1, 1, 1, 1, 1, 1, 1] }

/-- The current buffer holds Stone at every in-bounds protected-boundary cell. -/
def bdryStone (g : ParticleGrid) : Prop :=
  ∀ x y : Int, inB g x y → boundaryCell g x y → g.Get x y = Particle.Stone

/-- The next buffer holds Stone at every in-bounds protected-boundary cell. -/
def bdryStoneNext (g : ParticleGrid) : Prop :=
  ∀ x y : Int, inB g x y → boundaryCell g x y → g.GetNext x y = Particle.Stone

/-- The next buffer is entirely Empty (its state right after `Clear`). -/
def nextBlank (g : ParticleGrid) : Prop :=
  ∀ x y : Int, inB g x y → g.GetNext x y = Particle.Empty

/-- Grid states reachable in the program: the constructor, then any
interleaving of frame updates, clears, brush strokes and file loads. -/
inductive Reachable : ParticleGrid → Prop
  | init (w h : Nat) : Reachable (mkGrid w h)
  | update (g : ParticleGrid) (gs : GameState) (rng : List Nat) :
      Reachable g → Reachable (g.Update gs rng).1
  | clear (g : ParticleGrid) : Reachable g → Reachable g.Clear
  | add (g : ParticleGrid) (x y : Int) (p : Particle) (brush : Int) :
      Reachable g → Reachable (g.AddParticle x y p brush)
  | load (g : ParticleGrid) (lines : List (List Char)) :
      Reachable g → Reachable (g.LoadFromFile lines)

/-! ## Basic facts about the grid store -/

theorem not_oob_iff {g : ParticleGrid} {x y : Int} : ¬ oob g x y ↔ inB g x y := by
  unfold oob inB; push_neg; tauto

theorem rowcol_inj {w x x' y y' : Nat} (hx : x < w) (hx' : x' < w) :
    y * w + x = y' * w + x' ↔ y = y' ∧ x = x' := by
  constructor
  · intro h
    have hy : y = y' := by
      by_contra hne
      rcases Nat.lt_or_ge y y' with h1 | h1
      · have hlt : y * w + x < y' * w + x' := by
          calc y * w + x < y * w + w := by omega
          _ = (y + 1) * w := by ring
          _ ≤ y' * w := Nat.mul_le_mul_right w h1
          _ ≤ y' * w + x' := Nat.le_add_right _ _
        omega
      · have h2 : y' < y := by omega
        have hlt : y' * w + x' < y * w + x := by
          calc y' * w + x' < y' * w + w := by omega
          _ = (y' + 1) * w := by ring
          _ ≤ y * w := Nat.mul_le_mul_right w h2
          _ ≤ y * w + x := Nat.le_add_right _ _
        omega
    subst hy; omega
  · rintro ⟨rfl, rfl⟩; rfl

theorem cellIdx_lt {g : ParticleGrid} {x y : Int} (h : inB g x y) :
    cellIdx g.width x y < g.width * g.height := by
  obtain ⟨h1, h2, h3, h4⟩ := h
  have hx : x.toNat < g.width := by omega
  have hy : y.toNat < g.height := by omega
  unfold cellIdx
  calc y.toNat * g.width + x.toNat < y.toNat * g.width + g.width := by omega
  _ = (y.toNat + 1) * g.width := by ring
  _ ≤ g.height * g.width := Nat.mul_le_mul_right _ (by omega)
  _ = g.width * g.height := Nat.mul_comm _ _

theorem cellIdx_inj {g : ParticleGrid} {x y x' y' : Int} (h : inB g x y) (h' : inB g x' y') :
    cellIdx g.width x y = cellIdx g.width x' y' ↔ x = x' ∧ y = y' := by
  obtain ⟨h1, h2, h3, h4⟩ := h
  obtain ⟨h1', h2', h3', h4'⟩ := h'
  unfold cellIdx
  rw [rowcol_inj (by omega) (by omega)]
  omega

theorem listGetD_set_self {α : Type} {l : List α} {i : Nat} (h : i < l.length) (v d : α) :
    (l.set i v).getD i d = v := by
  rw [List.getD_eq_getElem _ _ (by simpa using h)]
  simp [List.getElem_set]

theorem listGetD_set_ne {α : Type} {l : List α} {i j : Nat} (hne : i ≠ j) (v d : α) :
    (l.set i v).getD j d = l.getD j d := by
  simp [List.getD_eq_getD_get?, List.getElem?_set_ne hne]

theorem countP_set {α : Type} (P : α → Bool) (d : α) :
    ∀ (l : List α) (i : Nat) (v : α), i < l.length →
      (l.set i v).countP P + (if P (l.getD i d) then 1 else 0) =
        l.countP P + (if P v then 1 else 0)
  | [], i, _, h => by simp at h
  | a :: tl, 0, v, _ => by
    simp [List.countP_cons, List.getD_cons_zero]
    omega
  | a :: tl, i + 1, v, h => by
    have ih := countP_set P d tl i v (by simpa using h)
    simp only [List.set, List.countP_cons, List.getD_cons_succ]
    omega

/-! Field-preservation lemmas for the write primitives. -/

@[simp] theorem Set_width (g : ParticleGrid) (x y : Int) (p : Particle) :
    (g.Set x y p).width = g.width := by
  unfold ParticleGrid.Set; split
  · rfl
  · split <;> rfl

@[simp] theorem Set_height (g : ParticleGrid) (x y : Int) (p : Particle) :
    (g.Set x y p).height = g.height := by
  unfold ParticleGrid.Set; split
  · rfl
  · split <;> rfl

@[simp] theorem Set_nextGrid (g : ParticleGrid) (x y : Int) (p : Particle) :
    (g.Set x y p).nextGrid = g.nextGrid := by
  unfold ParticleGrid.Set; split
  · rfl
  · split <;> rfl

@[simp] theorem Set_temperature (g : ParticleGrid) (x y : Int) (p : Particle) :
    (g.Set x y p).temperature = g.temperature := by
  unfold ParticleGrid.Set; split
  · rfl
  · split <;> rfl

@[simp] theorem SetNext_width (g : ParticleGrid) (x y : Int) (p : Particle) :
    (g.SetNext x y p).width = g.width := by
  unfold ParticleGrid.SetNext; split <;> rfl

@[simp] theorem SetNext_height (g : ParticleGrid) (x y : Int) (p : Particle) :
    (g.SetNext x y p).height = g.height := by
  unfold ParticleGrid.SetNext; split <;> rfl

@[simp] theorem SetNext_grid (g : ParticleGrid) (x y : Int) (p : Particle) :
    (g.SetNext x y p).grid = g.grid := by
  unfold ParticleGrid.SetNext; split <;> rfl

@[simp] theorem SetNext_temperature (g : ParticleGrid) (x y : Int) (p : Particle) :
    (g.SetNext x y p).temperature = g.temperature := by
  unfold ParticleGrid.SetNext; split <;> rfl

@[simp] theorem SetTemperature_width (g : ParticleGrid) (x y : Int) (t : Int) :
    (g.SetTemperature x y t).width = g.width := by
  unfold ParticleGrid.SetTemperature; split <;> rfl

@[simp] theorem SetTemperature_height (g : ParticleGrid) (x y : Int) (t : Int) :
    (g.SetTemperature x y t).height = g.height := by
  unfold ParticleGrid.SetTemperature; split <;> rfl

@[simp] theorem SetTemperature_grid (g : ParticleGrid) (x y : Int) (t : Int) :
    (g.SetTemperature x y t).grid = g.grid := by
  unfold ParticleGrid.SetTemperature; split <;> rfl

@[simp] theorem SetTemperature_nextGrid (g : ParticleGrid) (x y : Int) (t : Int) :
    (g.SetTemperature x y t).nextGrid = g.nextGrid := by
  unfold ParticleGrid.SetTemperature; split <;> rfl

/-! `Get`, `GetNext` and `GetTemperature` depend only on the fields they read. -/

theorem Get_congr {g g' : ParticleGrid} (hw : g'.width = g.width) (hh : g'.height = g.height)
    (hg : g'.grid = g.grid) (x y : Int) : g'.Get x y = g.Get x y := by
  rcases g' with ⟨w', h', gr', ng', tp', q1', q2', q3'⟩
  rcases g with ⟨w, h, gr, ng, tp, q1, q2, q3⟩
  dsimp only at hw hh hg
  subst hw; subst hh; subst hg
  rfl

theorem GetNext_congr {g g' : ParticleGrid} (hw : g'.width = g.width) (hh : g'.height = g.height)
    (hg : g'.nextGrid = g.nextGrid) (x y : Int) : g'.GetNext x y = g.GetNext x y := by
  rcases g' with ⟨w', h', gr', ng', tp', q1', q2', q3'⟩
  rcases g with ⟨w, h, gr, ng, tp, q1, q2, q3⟩
  dsimp only at hw hh hg
  subst hw; subst hh; subst hg
  rfl

theorem GetTemperature_congr {g g' : ParticleGrid} (hw : g'.width = g.width)
    (hh : g'.height = g.height) (hg : g'.temperature = g.temperature) (x y : Int) :
    g'.GetTemperature x y = g.GetTemperature x y := by
  rcases g' with ⟨w', h', gr', ng', tp', q1', q2', q3'⟩
  rcases g with ⟨w, h, gr, ng, tp, q1, q2, q3⟩
  dsimp only at hw hh hg
  subst hw; subst hh; subst hg
  rfl

/-! Primitive unfolding lemmas for the three guarded writes. -/

theorem Set_of_oob {g : ParticleGrid} {x y : Int} (p : Particle) (h : oob g x y) :
    g.Set x y p = g := by
  unfold ParticleGrid.Set; rw [if_pos h]

theorem Set_of_boundary {g : ParticleGrid} {x y : Int} (p : Particle) (h : boundaryCell g x y) :
    g.Set x y p = g := by
  unfold ParticleGrid.Set
  by_cases h1 : oob g x y
  · rw [if_pos h1]
  · rw [if_neg h1, if_pos h]

theorem Set_grid_write {g : ParticleGrid} {x y : Int} (p : Particle) (h1 : ¬ oob g x y)
    (h2 : ¬ boundaryCell g x y) :
    (g.Set x y p).grid = g.grid.set (cellIdx g.width x y) p := by
  unfold ParticleGrid.Set; rw [if_neg h1, if_neg h2]

theorem SetNext_of_oob {g : ParticleGrid} {x y : Int} (p : Particle) (h : oob g x y) :
    g.SetNext x y p = g := by
  unfold ParticleGrid.SetNext; rw [if_pos h]

theorem SetNext_nextGrid_write {g : ParticleGrid} {x y : Int} (p : Particle) (h : ¬ oob g x y) :
    (g.SetNext x y p).nextGrid = g.nextGrid.set (cellIdx g.width x y) p := by
  unfold ParticleGrid.SetNext; rw [if_neg h]

theorem SetTemperature_of_oob {g : ParticleGrid} {x y : Int} (t : Int) (h : oob g x y) :
    g.SetTemperature x y t = g := by
  unfold ParticleGrid.SetTemperature; rw [if_pos h]

theorem SetTemperature_temperature_write {g : ParticleGrid} {x y : Int} (t : Int)
    (h : ¬ oob g x y) :
    (g.SetTemperature x y t).temperature = g.temperature.set (cellIdx g.width x y) t := by
  unfold ParticleGrid.SetTemperature; rw [if_neg h]

theorem oob_SetNext (g : ParticleGrid) (x y : Int) (p : Particle) (x' y' : Int) :
    oob (g.SetNext x y p) x' y' ↔ oob g x' y' := by
  unfold oob; rw [SetNext_width, SetNext_height]

theorem oob_Set (g : ParticleGrid) (x y : Int) (p : Particle) (x' y' : Int) :
    oob (g.Set x y p) x' y' ↔ oob g x' y' := by
  unfold oob; rw [Set_width, Set_height]

theorem oob_SetTemperature (g : ParticleGrid) (x y : Int) (t : Int) (x' y' : Int) :
    oob (g.SetTemperature x y t) x' y' ↔ oob g x' y' := by
  unfold oob; rw [SetTemperature_width, SetTemperature_height]

@[simp] theorem Get_SetNext (g : ParticleGrid) (x y x' y' : Int) (p : Particle) :
    (g.SetNext x y p).Get x' y' = g.Get x' y' :=
  Get_congr (by simp) (by simp) (by simp) _ _

@[simp] theorem Get_SetTemperature (g : ParticleGrid) (x y x' y' : Int) (t : Int) :
    (g.SetTemperature x y t).Get x' y' = g.Get x' y' :=
  Get_congr (by simp) (by simp) (by simp) _ _

@[simp] theorem GetNext_Set (g : ParticleGrid) (x y x' y' : Int) (p : Particle) :
    (g.Set x y p).GetNext x' y' = g.GetNext x' y' :=
  GetNext_congr (by simp) (by simp) (by simp) _ _

@[simp] theorem GetNext_SetTemperature (g : ParticleGrid) (x y x' y' : Int) (t : Int) :
    (g.SetTemperature x y t).GetNext x' y' = g.GetNext x' y' :=
  GetNext_congr (by simp) (by simp) (by simp) _ _

@[simp] theorem GetTemperature_Set (g : ParticleGrid) (x y x' y' : Int) (p : Particle) :
    (g.Set x y p).GetTemperature x' y' = g.GetTemperature x' y' :=
  GetTemperature_congr (by simp) (by simp) (by simp) _ _

@[simp] theorem GetTemperature_SetNext (g : ParticleGrid) (x y x' y' : Int) (p : Particle) :
    (g.SetNext x y p).GetTemperature x' y' = g.GetTemperature x' y' :=
  GetTemperature_congr (by simp) (by simp) (by simp) _ _

/-- What `SetNext` does to `GetNext`, pointwise. -/
theorem GetNext_SetNext (g : ParticleGrid) (x y x' y' : Int) (p : Particle) :
    (g.SetNext x y p).GetNext x' y' =
      if inB g x y ∧ x' = x ∧ y' = y then p else g.GetNext x' y' := by
  by_cases h1 : oob g x y
  · rw [SetNext_of_oob p h1, if_neg]
    rintro ⟨hin, -, -⟩
    exact (not_oob_iff.mpr hin) h1
  · have hin : inB g x y := not_oob_iff.mp h1
    by_cases h2 : oob g x' y'
    · rw [if_neg (by rintro ⟨-, rfl, rfl⟩; exact h1 h2)]
      unfold ParticleGrid.GetNext
      rw [if_pos ((oob_SetNext g x y p x' y').mpr h2), if_pos h2]
    · have hin' : inB g x' y' := not_oob_iff.mp h2
      unfold ParticleGrid.GetNext
      rw [if_neg (fun h => h2 ((oob_SetNext g x y p x' y').mp h)), if_neg h2,
        SetNext_nextGrid_write p h1, SetNext_width]
      by_cases heq : x' = x ∧ y' = y
      · obtain ⟨rfl, rfl⟩ := heq
        rw [if_pos ⟨hin, rfl, rfl⟩]
        exact listGetD_set_self (by rw [g.hnext]; exact cellIdx_lt hin) _ _
      · rw [if_neg (by tauto)]
        refine listGetD_set_ne ?_ _ _
        intro hidx
        exact heq ⟨((cellIdx_inj hin hin').mp hidx).1.symm, ((cellIdx_inj hin hin').mp hidx).2.symm⟩

/-- What `Set` does to `Get`, pointwise: the write lands only in-bounds, off
the protected boundary. -/
theorem Get_Set (g : ParticleGrid) (x y x' y' : Int) (p : Particle) :
    (g.Set x y p).Get x' y' =
      if inB g x y ∧ ¬ boundaryCell g x y ∧ x' = x ∧ y' = y then p else g.Get x' y' := by
  by_cases h1 : oob g x y
  · rw [Set_of_oob p h1, if_neg]
    rintro ⟨hin, -, -, -⟩
    exact (not_oob_iff.mpr hin) h1
  · have hin : inB g x y := not_oob_iff.mp h1
    by_cases hb : boundaryCell g x y
    · rw [Set_of_boundary p hb, if_neg (by tauto)]
    · by_cases h2 : oob g x' y'
      · rw [if_neg (by rintro ⟨-, -, rfl, rfl⟩; exact h1 h2)]
        unfold ParticleGrid.Get
        rw [if_pos ((oob_Set g x y p x' y').mpr h2), if_pos h2]
      · have hin' : inB g x' y' := not_oob_iff.mp h2
        unfold ParticleGrid.Get
        rw [if_neg (fun h => h2 ((oob_Set g x y p x' y').mp h)), if_neg h2,
          Set_grid_write p h1 hb, Set_width]
        by_cases heq : x' = x ∧ y' = y
        · obtain ⟨rfl, rfl⟩ := heq
          rw [if_pos ⟨hin, hb, rfl, rfl⟩]
          exact listGetD_set_self (by rw [g.hgrid]; exact cellIdx_lt hin) _ _
        · rw [if_neg (by tauto)]
          refine listGetD_set_ne ?_ _ _
          intro hidx
          exact heq ⟨((cellIdx_inj hin hin').mp hidx).1.symm, ((cellIdx_inj hin hin').mp hidx).2.symm⟩

/-- What `SetTemperature` does to `GetTemperature`, pointwise. -/
theorem GetTemperature_SetTemperature (g : ParticleGrid) (x y x' y' : Int) (t : Int) :
    (g.SetTemperature x y t).GetTemperature x' y' =
      if inB g x y ∧ x' = x ∧ y' = y then t else g.GetTemperature x' y' := by
  by_cases h1 : oob g x y
  · rw [SetTemperature_of_oob t h1, if_neg]
    rintro ⟨hin, -, -⟩
    exact (not_oob_iff.mpr hin) h1
  · have hin : inB g x y := not_oob_iff.mp h1
    by_cases h2 : oob g x' y'
    · rw [if_neg (by rintro ⟨-, rfl, rfl⟩; exact h1 h2)]
      unfold ParticleGrid.GetTemperature
      rw [if_pos ((oob_SetTemperature g x y t x' y').mpr h2), if_pos h2]
    · have hin' : inB g x' y' := not_oob_iff.mp h2
      unfold ParticleGrid.GetTemperature
      rw [if_neg (fun h => h2 ((oob_SetTemperature g x y t x' y').mp h)), if_neg h2,
        SetTemperature_temperature_write t h1, SetTemperature_width]
      by_cases heq : x' = x ∧ y' = y
      · obtain ⟨rfl, rfl⟩ := heq
        rw [if_pos ⟨hin, rfl, rfl⟩]
        exact listGetD_set_self (by rw [g.htemp]; exact cellIdx_lt hin) _ _
      · rw [if_neg (by tauto)]
        refine listGetD_set_ne ?_ _ _
        intro hidx
        exact heq ⟨((cellIdx_inj hin hin').mp hidx).1.symm, ((cellIdx_inj hin hin').mp hidx).2.symm⟩

/-! ## List scaffolding: membership and distinctness of the scan orders -/

theorem prodRows_nil (xs : List Int) : prodRows [] xs = [] := rfl

theorem prodRows_cons (y : Int) (ys xs : List Int) :
    prodRows (y :: ys) xs = (xs.map fun x => (x, y)) ++ prodRows ys xs := rfl

theorem prodRows_mem (ys xs : List Int) (c : Int × Int) :
    c ∈ prodRows ys xs ↔ c.1 ∈ xs ∧ c.2 ∈ ys := by
  induction ys with
  | nil => simp [prodRows]
  | cons y ys ih =>
    rcases c with ⟨cx, cy⟩
    rw [prodRows_cons]
    simp only [List.mem_append, List.mem_map, List.mem_cons, ih]
    constructor
    · rintro (⟨x, hx, heq⟩ | ⟨h1, h2⟩)
      · cases heq
        exact ⟨hx, Or.inl rfl⟩
      · exact ⟨h1, Or.inr h2⟩
    · rintro ⟨hx, rfl | hy⟩
      · exact Or.inl ⟨cx, hx, rfl⟩
      · exact Or.inr ⟨hx, hy⟩

theorem prodRows_nodup (ys xs : List Int) (hys : ys.Nodup) (hxs : xs.Nodup) :
    (prodRows ys xs).Nodup := by
  induction ys with
  | nil => simp [prodRows]
  | cons y ys ih =>
    rw [prodRows_cons, List.nodup_append]
    obtain ⟨hy, hys'⟩ := List.nodup_cons.mp hys
    refine ⟨hxs.map ?_, ih hys', ?_⟩
    · intro a b hab
      simpa using congrArg Prod.fst hab
    · intro c hc hc'
      obtain ⟨x, -, rfl⟩ := List.mem_map.mp hc
      have hm := (prodRows_mem ys xs _).mp hc'
      exact hy hm.2

theorem offsRange_mem (r d : Int) : d ∈ offsRange r ↔ -r ≤ d ∧ d ≤ r := by
  unfold offsRange
  rw [List.mem_map]
  constructor
  · rintro ⟨i, hi, rfl⟩
    rw [List.mem_range] at hi
    omega
  · intro h
    refine ⟨(d + r).toNat, ?_, ?_⟩
    · rw [List.mem_range]; omega
    · omega

theorem offsRange_nodup (r : Int) : (offsRange r).Nodup := by
  unfold offsRange
  apply List.Nodup.map
  · intro a b hab
    dsimp only at hab
    omega
  · exact List.nodup_range _

theorem brushOffsets_mem (r : Int) (c : Int × Int) :
    c ∈ brushOffsets r ↔ (-r ≤ c.1 ∧ c.1 ≤ r) ∧ (-r ≤ c.2 ∧ c.2 ≤ r) := by
  unfold brushOffsets
  rw [prodRows_mem, offsRange_mem, offsRange_mem]

theorem brushOffsets_nodup (r : Int) : (brushOffsets r).Nodup :=
  prodRows_nodup _ _ (offsRange_nodup r) (offsRange_nodup r)

theorem foldl_nested {α : Type} (f : α → Int → Int → α) (ys xs : List Int) (a : α) :
    ys.foldl (fun acc dy => xs.foldl (fun acc2 dx => f acc2 dx dy) acc) a =
      (prodRows ys xs).foldl (fun acc c => f acc c.1 c.2) a := by
  induction ys generalizing a with
  | nil => rfl
  | cons dy ys ih =>
    unfold prodRows at *
    rw [List.foldl_cons, List.foldr_cons, List.foldl_append, List.foldl_map, ih]

/-! ## Claim C9: the out-of-range access policy -/

/-- Claim C9: for every coordinate pair outside the grid, `Get` returns Stone,
`GetTemperature` returns ambient 20, and `Set` / `SetTemperature` are silent
no-ops; no out-of-range access fails. -/
theorem C9_out_of_range_policy (g : ParticleGrid) (x y : Int) (p : Particle) (t : Int)
    (h : oob g x y) :
    g.Get x y = Particle.Stone ∧ g.GetTemperature x y = 20 ∧
      g.Set x y p = g ∧ g.SetTemperature x y t = g := by
  refine ⟨?_, ?_, Set_of_oob p h, SetTemperature_of_oob t h⟩
  · unfold ParticleGrid.Get; rw [if_pos h]
  · unfold ParticleGrid.GetTemperature; rw [if_pos h]

/-- Witness for C9 at the concrete out-of-range coordinate (-1, 2) of a 6×6 grid. -/
theorem C9_out_of_range_policy_witness :
    oob g66 (-1) 2 ∧
      (g66.Get (-1) 2 = Particle.Stone ∧ g66.GetTemperature (-1) 2 = 20 ∧
        g66.Set (-1) 2 Particle.Sand = g66 ∧ g66.SetTemperature (-1) 2 5 = g66) :=
  ⟨by decide, C9_out_of_range_policy g66 (-1) 2 Particle.Sand 5 (by decide)⟩

/-! ## Claim C1: save / load round trip -/

/-- Claim C1 (code bug): the round trip FAILS.  `SaveToFile` writes the Stone
wall symbol `'#'` as the first character of every row (column 0 is always
Stone), and `LoadFromFile` skips every line whose first character is `'#'` as
a comment, so loading a saved file restores nothing: the Sand cell at (2, 2)
comes back Empty and the loaded grid is exactly the cleared grid. -/
theorem C1_roundtrip_fails_at_sand_cell :
    gSave.Get 2 2 = Particle.Sand ∧
      (gSave.LoadFromFile gSave.SaveToFile).Get 2 2 = Particle.Empty ∧
      (gSave.LoadFromFile gSave.SaveToFile).grid = gSave.Clear.grid ∧
      (gSave.SaveToFile.map fun l => l.headD ' ') =
        ['#', '#', '#', '#', '#', '#', '#', '#'] := by decide

/-! ## Claim C8: the brush placement characterization -/

theorem inB_Set (g : ParticleGrid) (x y : Int) (p : Particle) (x' y' : Int) :
    inB (g.Set x y p) x' y' ↔ inB g x' y' := by
  unfold inB; rw [Set_width, Set_height]

theorem inB_SetNext (g : ParticleGrid) (x y : Int) (p : Particle) (x' y' : Int) :
    inB (g.SetNext x y p) x' y' ↔ inB g x' y' := by
  unfold inB; rw [SetNext_width, SetNext_height]

theorem inB_SetTemperature (g : ParticleGrid) (x y : Int) (t : Int) (x' y' : Int) :
    inB (g.SetTemperature x y t) x' y' ↔ inB g x' y' := by
  unfold inB; rw [SetTemperature_width, SetTemperature_height]

@[simp] theorem brushStep_width (x y : Int) (p : Particle) (r : Int) (a : ParticleGrid)
    (dx dy : Int) : (brushStep x y p r a dx dy).width = a.width := by
  unfold brushStep
  split_ifs <;> simp

@[simp] theorem brushStep_height (x y : Int) (p : Particle) (r : Int) (a : ParticleGrid)
    (dx dy : Int) : (brushStep x y p r a dx dy).height = a.height := by
  unfold brushStep
  split_ifs <;> simp

/-- Pointwise effect of one brush-loop iteration on cell and temperature. -/
theorem brushStep_char (x y : Int) (p : Particle) (r : Int) (a : ParticleGrid)
    (dx dy tx ty : Int) :
    ((brushStep x y p r a dx dy).Get tx ty =
      if (tx, ty) = (x + dx, y + dy) ∧ brushWrites a x y p r tx ty then p else a.Get tx ty) ∧
    ((brushStep x y p r a dx dy).GetTemperature tx ty =
      if (tx, ty) = (x + dx, y + dy) ∧ brushWrites a x y p r tx ty then initTemp p
      else a.GetTemperature tx ty) := by
  unfold brushStep
  by_cases h1 : dx * dx + dy * dy ≤ r * r
  · rw [if_pos h1]
    by_cases h2 : 0 < x + dx ∧ x + dx < (a.width : Int) - 1 ∧ 0 ≤ y + dy ∧
        y + dy < (a.height : Int) - 2
    · rw [if_pos h2]
      by_cases h3 : p = Particle.Empty ∨ a.Get (x + dx) (y + dy) = Particle.Empty ∨
          a.Get (x + dx) (y + dy) = Particle.Steam
      · rw [if_pos h3]
        obtain ⟨k1, k2, k3, k4⟩ := h2
        by_cases hc : tx = x + dx ∧ ty = y + dy
        · obtain ⟨rfl, rfl⟩ := hc
          have hbw : brushWrites a x y p r (x + dx) (y + dy) := by
            refine ⟨by simpa [add_sub_cancel_left] using h1, k1, k2, k3, k4, h3⟩
          have hinB : inB a (x + dx) (y + dy) := by
            unfold inB; omega
          have hbd : ¬ boundaryCell a (x + dx) (y + dy) := by
            unfold boundaryCell; omega
          constructor
          · rw [Get_SetTemperature, Get_Set, if_pos ⟨hinB, hbd, rfl, rfl⟩,
              if_pos ⟨rfl, hbw⟩]
          · rw [GetTemperature_SetTemperature, if_pos ⟨by rw [inB_Set]; exact hinB, rfl, rfl⟩,
              if_pos ⟨rfl, hbw⟩]
        · have hne1 : ¬ ((tx, ty) = (x + dx, y + dy) ∧ brushWrites a x y p r tx ty) := by
            rintro ⟨hpair, -⟩
            rw [Prod.mk.injEq] at hpair
            exact hc hpair
          constructor
          · rw [Get_SetTemperature, Get_Set, if_neg (by rintro ⟨-, -, h4, h5⟩; exact hc ⟨h4, h5⟩),
              if_neg hne1]
          · rw [GetTemperature_SetTemperature, if_neg (by rintro ⟨-, h4, h5⟩; exact hc ⟨h4, h5⟩),
              GetTemperature_Set, if_neg hne1]
      · rw [if_neg h3]
        have hne1 : ¬ ((tx, ty) = (x + dx, y + dy) ∧ brushWrites a x y p r tx ty) := by
          rintro ⟨hpair, hbw⟩
          rw [Prod.mk.injEq] at hpair
          obtain ⟨rfl, rfl⟩ := hpair
          exact h3 hbw.2.2.2.2.2
        exact ⟨by rw [if_neg hne1], by rw [if_neg hne1]⟩
    · rw [if_neg h2]
      have hne1 : ¬ ((tx, ty) = (x + dx, y + dy) ∧ brushWrites a x y p r tx ty) := by
        rintro ⟨hpair, hbw⟩
        rw [Prod.mk.injEq] at hpair
        obtain ⟨rfl, rfl⟩ := hpair
        exact h2 ⟨hbw.2.1, hbw.2.2.1, hbw.2.2.2.1, hbw.2.2.2.2.1⟩
      exact ⟨by rw [if_neg hne1], by rw [if_neg hne1]⟩
  · rw [if_neg h1]
    have hne1 : ¬ ((tx, ty) = (x + dx, y + dy) ∧ brushWrites a x y p r tx ty) := by
      rintro ⟨hpair, hbw⟩
      rw [Prod.mk.injEq] at hpair
      obtain ⟨rfl, rfl⟩ := hpair
      apply h1
      simpa [add_sub_cancel_left] using hbw.1
    exact ⟨by rw [if_neg hne1], by rw [if_neg hne1]⟩

/-- `brushWrites` is stable under steps that do not touch the target cell. -/
theorem brushWrites_congr {a a' : ParticleGrid} (hw : a'.width = a.width)
    (hh : a'.height = a.height) (x y : Int) (p : Particle) (r : Int) (tx ty : Int)
    (hg : a'.Get tx ty = a.Get tx ty) :
    brushWrites a' x y p r tx ty ↔ brushWrites a x y p r tx ty := by
  unfold brushWrites
  rw [hw, hh, hg]

/-- Characterization of the flattened brush fold over any duplicate-free
offset list. -/
theorem brushFold_char (x y : Int) (p : Particle) (r : Int) :
    ∀ (offs : List (Int × Int)) (g : ParticleGrid), offs.Nodup → ∀ tx ty : Int,
      ((offs.foldl (fun a c => brushStep x y p r a c.1 c.2) g).Get tx ty =
        if (tx - x, ty - y) ∈ offs ∧ brushWrites g x y p r tx ty then p else g.Get tx ty) ∧
      ((offs.foldl (fun a c => brushStep x y p r a c.1 c.2) g).GetTemperature tx ty =
        if (tx - x, ty - y) ∈ offs ∧ brushWrites g x y p r tx ty then initTemp p
        else g.GetTemperature tx ty)
  | [], g, _, tx, ty => by simp
  | o :: offs, g, hnd, tx, ty => by
    obtain ⟨hno, hnd'⟩ := List.nodup_cons.mp hnd
    rw [List.foldl_cons]
    have ihall := brushFold_char x y p r offs (brushStep x y p r g o.1 o.2) hnd'
    have ih := ihall tx ty
    have hstep := brushStep_char x y p r g o.1 o.2 tx ty
    by_cases hmem : (tx - x, ty - y) = o
    · have hpair : (tx, ty) = (x + o.1, y + o.2) := by
        rw [Prod.mk.injEq] at hmem ⊢
        omega
      have hnotin : (tx - x, ty - y) ∉ offs := hmem ▸ hno
      constructor
      · rw [ih.1, if_neg (by rintro ⟨hi, -⟩; exact hnotin hi), hstep.1]
        by_cases hbw : brushWrites g x y p r tx ty
        · rw [if_pos ⟨hpair, hbw⟩, if_pos ⟨by rw [hmem]; exact List.mem_cons_self o offs, hbw⟩]
        · rw [if_neg (by rintro ⟨-, hb⟩; exact hbw hb),
            if_neg (by rintro ⟨-, hb⟩; exact hbw hb)]
      · rw [ih.2, if_neg (by rintro ⟨hi, -⟩; exact hnotin hi), hstep.2]
        by_cases hbw : brushWrites g x y p r tx ty
        · rw [if_pos ⟨hpair, hbw⟩, if_pos ⟨by rw [hmem]; exact List.mem_cons_self o offs, hbw⟩]
        · rw [if_neg (by rintro ⟨-, hb⟩; exact hbw hb),
            if_neg (by rintro ⟨-, hb⟩; exact hbw hb)]
    · have hpairne : ¬ ((tx, ty) = (x + o.1, y + o.2) ∧ brushWrites g x y p r tx ty) := by
        rintro ⟨hpair, -⟩
        apply hmem
        rw [Prod.mk.injEq] at hpair ⊢
        omega
      have hget : (brushStep x y p r g o.1 o.2).Get tx ty = g.Get tx ty := by
        rw [hstep.1, if_neg hpairne]
      have htemp : (brushStep x y p r g o.1 o.2).GetTemperature tx ty =
          g.GetTemperature tx ty := by
        rw [hstep.2, if_neg hpairne]
      have hbw : brushWrites (brushStep x y p r g o.1 o.2) x y p r tx ty ↔
          brushWrites g x y p r tx ty :=
        brushWrites_congr (brushStep_width ..) (brushStep_height ..) x y p r tx ty hget
      have hmemiff : ((tx - x, ty - y) ∈ o :: offs) ↔ ((tx - x, ty - y) ∈ offs) := by
        rw [List.mem_cons]
        exact ⟨fun h => h.elim (fun h' => absurd h' hmem) id, Or.inr⟩
      constructor
      · rw [ih.1, hget]
        by_cases hcond : (tx - x, ty - y) ∈ offs ∧ brushWrites g x y p r tx ty
        · rw [if_pos ⟨hcond.1, hbw.mpr hcond.2⟩, if_pos ⟨hmemiff.mpr hcond.1, hcond.2⟩]
        · rw [if_neg (by rintro ⟨h5, h6⟩; exact hcond ⟨h5, hbw.mp h6⟩),
            if_neg (by rintro ⟨h5, h6⟩; exact hcond ⟨hmemiff.mp h5, h6⟩)]
      · rw [ih.2, htemp]
        by_cases hcond : (tx - x, ty - y) ∈ offs ∧ brushWrites g x y p r tx ty
        · rw [if_pos ⟨hcond.1, hbw.mpr hcond.2⟩, if_pos ⟨hmemiff.mpr hcond.1, hcond.2⟩]
        · rw [if_neg (by rintro ⟨h5, h6⟩; exact hcond ⟨h5, hbw.mp h6⟩),
            if_neg (by rintro ⟨h5, h6⟩; exact hcond ⟨hmemiff.mp h5, h6⟩)]

theorem AddParticle_eq_fold (g : ParticleGrid) (x y : Int) (p : Particle) (brush : Int) :
    g.AddParticle x y p brush =
      (brushOffsets (Int.tdiv brush 2)).foldl
        (fun a c => brushStep x y p (Int.tdiv brush 2) a c.1 c.2) g := by
  unfold ParticleGrid.AddParticle brushOffsets
  exact foldl_nested (fun a2 dx dy => brushStep x y p (Int.tdiv brush 2) a2 dx dy) _ _ g

theorem sq_le_sq_bounds {a r : Int} (h0 : 0 ≤ r) (h1 : a * a ≤ r * r) : -r ≤ a ∧ a ≤ r := by
  constructor
  · by_contra h
    push_neg at h
    nlinarith
  · by_contra h
    push_neg at h
    nlinarith

/-- Claim C8: `AddParticle` writes the chosen type exactly at the in-circle,
paintable-interior targets that are Empty, Steam, or being erased, stamping the
per-type initial temperature there; every other cell and temperature — in
particular every protected boundary cell — is unchanged. -/
theorem C8_paint_characterization (g : ParticleGrid) (x y : Int) (p : Particle)
    (brush : Int) (hb : 0 ≤ brush) (tx ty : Int) :
    ((g.AddParticle x y p brush).Get tx ty =
      if brushWrites g x y p (Int.tdiv brush 2) tx ty then p else g.Get tx ty) ∧
    ((g.AddParticle x y p brush).GetTemperature tx ty =
      if brushWrites g x y p (Int.tdiv brush 2) tx ty then initTemp p
      else g.GetTemperature tx ty) ∧
    (boundaryCell g tx ty →
      (g.AddParticle x y p brush).Get tx ty = g.Get tx ty ∧
      (g.AddParticle x y p brush).GetTemperature tx ty = g.GetTemperature tx ty) := by
  have hr : 0 ≤ Int.tdiv brush 2 := Int.tdiv_nonneg hb (by norm_num)
  have hchar := brushFold_char x y p (Int.tdiv brush 2) (brushOffsets (Int.tdiv brush 2)) g
    (brushOffsets_nodup (Int.tdiv brush 2)) tx ty
  rw [AddParticle_eq_fold]
  have hmemof : brushWrites g x y p (Int.tdiv brush 2) tx ty →
      (tx - x, ty - y) ∈ brushOffsets (Int.tdiv brush 2) := by
    intro hbw
    rw [brushOffsets_mem]
    have hx2 : (tx - x) * (tx - x) ≤ Int.tdiv brush 2 * Int.tdiv brush 2 := by
      nlinarith [mul_self_nonneg (ty - y), hbw.1]
    have hy2 : (ty - y) * (ty - y) ≤ Int.tdiv brush 2 * Int.tdiv brush 2 := by
      nlinarith [mul_self_nonneg (tx - x), hbw.1]
    exact ⟨sq_le_sq_bounds hr hx2, sq_le_sq_bounds hr hy2⟩
  have hget : _ := hchar.1
  have htmp : _ := hchar.2
  by_cases hbw : brushWrites g x y p (Int.tdiv brush 2) tx ty
  · have hcond : (tx - x, ty - y) ∈ brushOffsets (Int.tdiv brush 2) ∧
        brushWrites g x y p (Int.tdiv brush 2) tx ty := ⟨hmemof hbw, hbw⟩
    refine ⟨by rw [hget, if_pos hcond, if_pos hbw], by rw [htmp, if_pos hcond, if_pos hbw], ?_⟩
    intro hbd
    exfalso
    obtain ⟨-, k1, k2, k3, k4, -⟩ := hbw
    unfold boundaryCell at hbd
    omega
  · have hcond : ¬ ((tx - x, ty - y) ∈ brushOffsets (Int.tdiv brush 2) ∧
        brushWrites g x y p (Int.tdiv brush 2) tx ty) := by
      rintro ⟨-, hc⟩; exact hbw hc
    exact ⟨by rw [hget, if_neg hcond, if_neg hbw], by rw [htmp, if_neg hcond, if_neg hbw],
      fun _ => ⟨by rw [hget, if_neg hcond], by rw [htmp, if_neg hcond]⟩⟩

/-- Witness for C8: painting Sand with brush 3 centred on the wall cell (0, 5)
of the 6×6 grid; the observed cell (0, 3) on the wall column is untouched. -/
theorem C8_paint_characterization_witness :
    (0 : Int) ≤ 3 ∧
      (((g66.AddParticle 0 5 Particle.Sand 3).Get 0 3 =
        if brushWrites g66 0 5 Particle.Sand (Int.tdiv 3 2) 0 3 then Particle.Sand
        else g66.Get 0 3) ∧
      ((g66.AddParticle 0 5 Particle.Sand 3).GetTemperature 0 3 =
        if brushWrites g66 0 5 Particle.Sand (Int.tdiv 3 2) 0 3 then initTemp Particle.Sand
        else g66.GetTemperature 0 3) ∧
      (boundaryCell g66 0 3 →
        (g66.AddParticle 0 5 Particle.Sand 3).Get 0 3 = g66.Get 0 3 ∧
        (g66.AddParticle 0 5 Particle.Sand 3).GetTemperature 0 3 =
          g66.GetTemperature 0 3)) :=
  ⟨by decide, C8_paint_characterization g66 0 5 Particle.Sand 3 (by decide) 0 3⟩

/-! ## Claim C4: the temperature diffusion pass -/

theorem colList_mem (w : Nat) (x : Int) : x ∈ colList w ↔ 1 ≤ x ∧ x ≤ (w : Int) - 2 := by
  unfold colList
  rw [List.mem_map]
  constructor
  · rintro ⟨i, hi, rfl⟩
    rw [List.mem_range] at hi
    omega
  · intro h
    refine ⟨(x - 1).toNat, ?_, ?_⟩
    · rw [List.mem_range]; omega
    · omega

theorem tempRows_mem (h : Nat) (y : Int) : y ∈ tempRows h ↔ 1 ≤ y ∧ y ≤ (h : Int) - 2 := by
  unfold tempRows
  rw [List.mem_map]
  constructor
  · rintro ⟨i, hi, rfl⟩
    rw [List.mem_range] at hi
    omega
  · intro hy
    refine ⟨(y - 1).toNat, ?_, ?_⟩
    · rw [List.mem_range]; omega
    · omega

theorem colList_nodup (w : Nat) : (colList w).Nodup := by
  unfold colList
  apply List.Nodup.map
  · intro a b hab
    dsimp only at hab
    omega
  · exact List.nodup_range _

theorem tempRows_nodup (h : Nat) : (tempRows h).Nodup := by
  unfold tempRows
  apply List.Nodup.map
  · intro a b hab
    dsimp only at hab
    omega
  · exact List.nodup_range _

theorem tempCoords_mem (w h : Nat) (c : Int × Int) :
    c ∈ tempCoords w h ↔ (1 ≤ c.1 ∧ c.1 ≤ (w : Int) - 2) ∧ (1 ≤ c.2 ∧ c.2 ≤ (h : Int) - 2) := by
  unfold tempCoords
  rw [prodRows_mem, colList_mem, tempRows_mem]

theorem tempCoords_nodup (w h : Nat) : (tempCoords w h).Nodup :=
  prodRows_nodup _ _ (tempRows_nodup h) (colList_nodup w)

@[simp] theorem diffuseCell_width (a : ParticleGrid) (x y : Int) :
    (diffuseCell a x y).width = a.width := by
  unfold diffuseCell
  split <;> simp

@[simp] theorem diffuseCell_height (a : ParticleGrid) (x y : Int) :
    (diffuseCell a x y).height = a.height := by
  unfold diffuseCell
  split <;> simp

@[simp] theorem diffuseCell_grid (a : ParticleGrid) (x y : Int) :
    (diffuseCell a x y).grid = a.grid := by
  unfold diffuseCell
  split <;> simp

@[simp] theorem diffuseCell_nextGrid (a : ParticleGrid) (x y : Int) :
    (diffuseCell a x y).nextGrid = a.nextGrid := by
  unfold diffuseCell
  split <;> simp

theorem tempFold_width (l : List (Int × Int)) :
    ∀ a : ParticleGrid, (l.foldl (fun a c => diffuseCell a c.1 c.2) a).width = a.width := by
  induction l with
  | nil => intro a; rfl
  | cons c l ih => intro a; rw [List.foldl_cons, ih, diffuseCell_width]

theorem tempFold_height (l : List (Int × Int)) :
    ∀ a : ParticleGrid, (l.foldl (fun a c => diffuseCell a c.1 c.2) a).height = a.height := by
  induction l with
  | nil => intro a; rfl
  | cons c l ih => intro a; rw [List.foldl_cons, ih, diffuseCell_height]

theorem tempFold_grid (l : List (Int × Int)) :
    ∀ a : ParticleGrid, (l.foldl (fun a c => diffuseCell a c.1 c.2) a).grid = a.grid := by
  induction l with
  | nil => intro a; rfl
  | cons c l ih => intro a; rw [List.foldl_cons, ih, diffuseCell_grid]

theorem tempFold_nextGrid (l : List (Int × Int)) :
    ∀ a : ParticleGrid, (l.foldl (fun a c => diffuseCell a c.1 c.2) a).nextGrid = a.nextGrid := by
  induction l with
  | nil => intro a; rfl
  | cons c l ih => intro a; rw [List.foldl_cons, ih, diffuseCell_nextGrid]

theorem diffuseCell_of_empty {a : ParticleGrid} {x y : Int} (h : a.Get x y = Particle.Empty) :
    diffuseCell a x y = a := by
  unfold diffuseCell; rw [if_pos h]

theorem diffuseCell_of_nonempty {a : ParticleGrid} {x y : Int}
    (h : ¬ a.Get x y = Particle.Empty) :
    diffuseCell a x y = a.SetTemperature x y (diffusedValue a x y) := by
  unfold diffuseCell; rw [if_neg h]

theorem GetTemperature_diffuseCell_ne (a : ParticleGrid) (cx cy x y : Int)
    (hne : ¬ (x = cx ∧ y = cy)) :
    (diffuseCell a cx cy).GetTemperature x y = a.GetTemperature x y := by
  unfold diffuseCell
  split
  · rfl
  · rw [GetTemperature_SetTemperature, if_neg (by tauto)]

theorem tempFold_GetTemperature_notmem (l : List (Int × Int)) (x y : Int) (hx : (x, y) ∉ l) :
    ∀ a : ParticleGrid,
      (l.foldl (fun a c => diffuseCell a c.1 c.2) a).GetTemperature x y =
        a.GetTemperature x y := by
  induction l with
  | nil => intro a; rfl
  | cons c l ih =>
    intro a
    rw [List.mem_cons] at hx
    push_neg at hx
    rw [List.foldl_cons, ih hx.2, GetTemperature_diffuseCell_ne]
    rintro ⟨rfl, rfl⟩
    exact hx.1 rfl

/-- Claim C4 (amended): the diffusion pass processes exactly the interior
margin `1 ≤ x ≤ width-2`, `1 ≤ y ≤ height-2` in row-major order, sequentially
in place: a processed non-Empty cell's final temperature is `diffusedValue`
(truncated mean of own and non-Empty-neighbor temperatures, then one unit
toward ambient 20) computed in the field state left by the cells processed
before it; a processed Empty cell keeps its stored temperature. -/
theorem C4_temperature_pass (g : ParticleGrid) (x y : Int) (pre post : List (Int × Int))
    (hsplit : tempCoords g.width g.height = pre ++ (x, y) :: post) :
    g.UpdateTemperature.GetTemperature x y =
      if g.Get x y = Particle.Empty then g.GetTemperature x y
      else diffusedValue (pre.foldl (fun a c => diffuseCell a c.1 c.2) g) x y := by
  have hnd : (pre ++ (x, y) :: post).Nodup := hsplit ▸ tempCoords_nodup g.width g.height
  have hmem : (x, y) ∈ tempCoords g.width g.height := by
    rw [hsplit]
    exact List.mem_append_right _ (List.mem_cons_self _ _)
  obtain ⟨hndpre, hndcons, hdisj⟩ := List.nodup_append.mp hnd
  have hpost : (x, y) ∉ post := (List.nodup_cons.mp hndcons).1
  have hpre : (x, y) ∉ pre := fun hin => hdisj hin (List.mem_cons_self _ _)
  unfold ParticleGrid.UpdateTemperature
  rw [hsplit, List.foldl_append, List.foldl_cons]
  rw [tempFold_GetTemperature_notmem post x y hpost]
  dsimp only
  have hbounds := (tempCoords_mem g.width g.height (x, y)).mp hmem
  dsimp only at hbounds
  have hgridmid : (pre.foldl (fun a c => diffuseCell a c.1 c.2) g).grid = g.grid :=
    tempFold_grid pre g
  have hwmid := tempFold_width pre g
  have hhmid := tempFold_height pre g
  have hGmid : (pre.foldl (fun a c => diffuseCell a c.1 c.2) g).Get x y = g.Get x y :=
    Get_congr hwmid hhmid hgridmid x y
  by_cases hE : g.Get x y = Particle.Empty
  · rw [if_pos hE, diffuseCell_of_empty (hGmid.trans hE),
      tempFold_GetTemperature_notmem pre x y hpre]
  · rw [if_neg hE, diffuseCell_of_nonempty (fun h => hE (hGmid.symm.trans h)),
      GetTemperature_SetTemperature, if_pos]
    refine ⟨?_, rfl, rfl⟩
    unfold inB
    rw [hwmid, hhmid]
    omega

set_option maxRecDepth 20000 in
/-- Witness for C4: the interior cell (2, 2) of a 6×6 grid, with the concrete
split of the diffusion scan order around it. -/
theorem C4_temperature_pass_witness :
    tempCoords g66.width g66.height = preC4 ++ (2, 2) :: postC4 ∧
    g66.UpdateTemperature.GetTemperature 2 2 =
      if g66.Get 2 2 = Particle.Empty then g66.GetTemperature 2 2
      else diffusedValue (preC4.foldl (fun a c => diffuseCell a c.1 c.2) g66) 2 2 :=
  ⟨by decide, C4_temperature_pass g66 2 2 preC4 postC4 (by decide)⟩

set_option maxRecDepth 20000 in
/-- Claim C4 counterexample: the cell (1, 0) of `gIceTop` is in bounds and
non-Empty (Ice), yet the diffusion pass leaves its temperature at −10, while
the claimed per-cell formula would give 16: the pass never visits row 0. -/
theorem C4_row0_cell_not_diffused :
    gIceTop.Get 1 0 = Particle.Ice ∧
    gIceTop.UpdateTemperature.GetTemperature 1 0 = -10 ∧
    diffusedValue gIceTop 1 0 = 16 := by decide

/-! ## Claim C5: the frame-skip gate -/

theorem skipFrames_pos (q : ℚ) : 0 < skipFrames q :=
  lt_of_lt_of_le zero_lt_one (le_max_left 1 _)

theorem skipFrames_one : skipFrames 1 = 1 := by
  unfold skipFrames
  norm_num

theorem skipFrames_threequarters : skipFrames (3 / 4) = 1 := by
  unfold skipFrames
  have h34 : (1 : ℚ) / (3 / 4) = 4 / 3 := by norm_num
  rw [h34]
  have hf : ⌊(4 : ℚ) / 3⌋ = 1 := by
    rw [Int.floor_eq_iff]
    norm_num
  rw [hf]
  exact max_self 1

theorem ceil_fourthirds : ⌈(1 : ℚ) / (3 / 4)⌉ = 2 := by
  have h34 : (1 : ℚ) / (3 / 4) = 4 / 3 := by norm_num
  rw [h34, Int.ceil_eq_iff]
  norm_num

/-- A paused or gated `Update` call returns the grid unchanged, counter advanced. -/
theorem Update_skip (g : ParticleGrid) (gs : GameState) (rng : List Nat)
    (hp : gs.isPaused = false)
    (h : Int.emod (gs.frameCounter + 1) (skipFrames gs.timeSpeed) ≠ 0) :
    g.Update gs rng = (g, { gs with frameCounter := gs.frameCounter + 1 }) := by
  unfold ParticleGrid.Update
  rw [hp]
  simp only [Bool.false_eq_true, if_false]
  rw [if_pos h]

/-- An `Update` call whose incremented counter passes the gate runs `doTick`. -/
theorem Update_tick (g : ParticleGrid) (gs : GameState) (rng : List Nat)
    (hp : gs.isPaused = false)
    (h : Int.emod (gs.frameCounter + 1) (skipFrames gs.timeSpeed) = 0) :
    g.Update gs rng = (doTick g rng, { gs with frameCounter := gs.frameCounter + 1 }) := by
  unfold ParticleGrid.Update
  rw [hp]
  simp only [Bool.false_eq_true, if_false]
  rw [if_neg (fun hcond => hcond h)]

/-- Claim C5 (amended): with pause inactive, every `Update` call increments the
frame counter, and a tick runs exactly when the incremented counter is
divisible by `skipFrames scale = max 1 ⌊1/scale⌋` (a truncation, not the
claimed ceiling); of any `skipFrames` consecutive calls exactly one ticks (the
offset `j` with `j = (-(counter+1)) mod skipFrames` is the unique one in
range), and a gated call returns the grid store — both cell buffers and the
temperature field — unchanged. -/
theorem C5_frame_gate (g : ParticleGrid) (gs : GameState) (rng : List Nat)
    (hp : gs.isPaused = false) (j : Int) (hj0 : 0 ≤ j) (hjk : j < skipFrames gs.timeSpeed) :
    (Int.emod (gs.frameCounter + 1) (skipFrames gs.timeSpeed) ≠ 0 →
      g.Update gs rng = (g, { gs with frameCounter := gs.frameCounter + 1 })) ∧
    (Int.emod (gs.frameCounter + 1) (skipFrames gs.timeSpeed) = 0 →
      g.Update gs rng = (doTick g rng, { gs with frameCounter := gs.frameCounter + 1 })) ∧
    0 ≤ Int.emod (-(gs.frameCounter + 1)) (skipFrames gs.timeSpeed) ∧
    Int.emod (-(gs.frameCounter + 1)) (skipFrames gs.timeSpeed) < skipFrames gs.timeSpeed ∧
    (Int.emod (gs.frameCounter + 1 + j) (skipFrames gs.timeSpeed) = 0 ↔
      j = Int.emod (-(gs.frameCounter + 1)) (skipFrames gs.timeSpeed)) := by
  have hk : 0 < skipFrames gs.timeSpeed := skipFrames_pos gs.timeSpeed
  have hkne : skipFrames gs.timeSpeed ≠ 0 := ne_of_gt hk
  refine ⟨Update_skip g gs rng hp, Update_tick g gs rng hp,
    Int.emod_nonneg _ hkne, Int.emod_lt_of_pos _ hk, ?_⟩
  set k := skipFrames gs.timeSpeed with hkdef
  set c := gs.frameCounter with hcdef
  constructor
  · intro h
    have d1 : k ∣ c + 1 + j := Int.dvd_of_emod_eq_zero h
    have d2 : k ∣ -(c + 1) - Int.emod (-(c + 1)) k := Int.dvd_sub_of_emod_eq rfl
    have d3 : k ∣ j - Int.emod (-(c + 1)) k := by
      have hdd := dvd_add d1 d2
      have heq2 : c + 1 + j + (-(c + 1) - Int.emod (-(c + 1)) k) =
          j - Int.emod (-(c + 1)) k := by ring
      rwa [heq2] at hdd
    have hb1 : 0 ≤ Int.emod (-(c + 1)) k := Int.emod_nonneg _ hkne
    have hb2 : Int.emod (-(c + 1)) k < k := Int.emod_lt_of_pos _ hk
    have habs : |j - Int.emod (-(c + 1)) k| < k := by
      rw [abs_lt]
      omega
    have hz := Int.eq_zero_of_abs_lt_dvd d3 habs
    omega
  · rintro rfl
    show (c + 1 + (-(c + 1)) % k) % k = 0
    rw [Int.add_emod, Int.emod_emod_of_dvd _ (dvd_refl k), ← Int.add_emod]
    have hzero : c + 1 + -(c + 1) = 0 := by ring
    rw [hzero, Int.zero_emod]

/-- Witness for C5 (amended) at the default clock: scale 1, divisor 1, offset 0. -/
theorem C5_frame_gate_witness :
    gs0.isPaused = false ∧ (0 : Int) ≤ 0 ∧ (0 : Int) < skipFrames gs0.timeSpeed ∧
    ((Int.emod (gs0.frameCounter + 1) (skipFrames gs0.timeSpeed) ≠ 0 →
      g66.Update gs0 [] = (g66, { gs0 with frameCounter := gs0.frameCounter + 1 })) ∧
    (Int.emod (gs0.frameCounter + 1) (skipFrames gs0.timeSpeed) = 0 →
      g66.Update gs0 [] = (doTick g66 [], { gs0 with frameCounter := gs0.frameCounter + 1 })) ∧
    0 ≤ Int.emod (-(gs0.frameCounter + 1)) (skipFrames gs0.timeSpeed) ∧
    Int.emod (-(gs0.frameCounter + 1)) (skipFrames gs0.timeSpeed) < skipFrames gs0.timeSpeed ∧
    (Int.emod (gs0.frameCounter + 1 + 0) (skipFrames gs0.timeSpeed) = 0 ↔
      (0 : Int) = Int.emod (-(gs0.frameCounter + 1)) (skipFrames gs0.timeSpeed))) :=
  ⟨rfl, le_refl 0, by rw [show gs0.timeSpeed = 1 from rfl, skipFrames_one]; exact zero_lt_one,
    C5_frame_gate g66 gs0 [] rfl 0 (le_refl 0)
      (by rw [show gs0.timeSpeed = 1 from rfl, skipFrames_one]; exact zero_lt_one)⟩

set_option maxRecDepth 40000 in
/-- Claim C5 counterexample: at scale 3/4 the claim's divisor ⌈1/scale⌉ is 2,
so of any 2 consecutive calls one should leave the buffers unchanged; but the
code's divisor is `max 1 ⌊4/3⌋ = 1` and two consecutive `Update` calls both
move the falling Sand cell. -/
theorem C5_two_consecutive_ticks :
    ⌈(1 : ℚ) / (3 / 4)⌉ = 2 ∧
    skipFrames (3 / 4) = 1 ∧
    gFall.Get 2 1 = Particle.Sand ∧
    (gFall.Update gsSlow []).1.Get 2 1 = Particle.Empty ∧
    (gFall.Update gsSlow []).1.Get 2 2 = Particle.Sand ∧
    ((gFall.Update gsSlow []).1.Update (gFall.Update gsSlow []).2 []).1.Get 2 2 =
      Particle.Empty ∧
    ((gFall.Update gsSlow []).1.Update (gFall.Update gsSlow []).2 []).1.Get 2 3 =
      Particle.Sand := by
  have h1 : gFall.Update gsSlow [] =
      (doTick gFall [], { gsSlow with frameCounter := gsSlow.frameCounter + 1 }) :=
    Update_tick _ _ _ rfl
      (by rw [show gsSlow.timeSpeed = 3 / 4 from rfl, skipFrames_threequarters]; decide)
  have h2 := Update_tick (doTick gFall [])
    { gsSlow with frameCounter := gsSlow.frameCounter + 1 } [] rfl
    (by rw [show ({ gsSlow with frameCounter := gsSlow.frameCounter + 1 } :
        GameState).timeSpeed = 3 / 4 from rfl, skipFrames_threequarters]; decide)
  refine ⟨ceil_fourthirds, skipFrames_threequarters, by decide, ?_, ?_, ?_, ?_⟩
  · rw [h1]; decide
  · rw [h1]; decide
  · rw [h1]
    dsimp only
    rw [h2]
    decide
  · rw [h1]
    dsimp only
    rw [h2]
    decide

/-! ## Claim C10: sideways liquid flow destroys Steam -/

theorem inB_of_Get_eq {g : ParticleGrid} {x y : Int} {p : Particle}
    (hp : p ≠ Particle.Stone) (h : g.Get x y = p) : inB g x y := by
  by_cases ho : oob g x y
  · exfalso
    apply hp
    rw [← h]
    unfold ParticleGrid.Get
    rw [if_pos ho]
  · exact not_oob_iff.mp ho

theorem randDir_cases (r : Nat) : randDir r = 1 ∨ randDir r = -1 := by
  unfold randDir
  split
  · exact Or.inl rfl
  · exact Or.inr rfl

theorem getD_eq_GetNext {g : ParticleGrid} {x y : Int} (hin : inB g x y) :
    g.nextGrid.getD (cellIdx g.width x y) Particle.Stone = g.GetNext x y := by
  unfold ParticleGrid.GetNext
  rw [if_neg (not_oob_iff.mpr hin)]

theorem countSteam_pair (l : List Particle) (i1 i0 : Nat) (p : Particle)
    (hp : (p == Particle.Steam) = false) (h1 : i1 < l.length) (h0 : i0 < l.length)
    (hne : i0 ≠ i1)
    (hs1 : (l.getD i1 Particle.Stone == Particle.Steam) = true)
    (hs0 : (l.getD i0 Particle.Stone == Particle.Steam) = false) :
    ((l.set i1 p).set i0 Particle.Empty).countP (fun q => q == Particle.Steam) + 1 =
      l.countP (fun q => q == Particle.Steam) := by
  have e1 := countP_set (fun q => q == Particle.Steam) Particle.Stone l i1 p h1
  have e2 := countP_set (fun q => q == Particle.Steam) Particle.Stone (l.set i1 p) i0
    Particle.Empty (by rw [List.length_set]; exact h0)
  rw [listGetD_set_ne (fun hh => hne hh.symm) p Particle.Stone] at e2
  dsimp only at e1 e2
  rw [hs1, hp] at e1
  rw [hs0] at e2
  simp at e1 e2
  omega

/-- The common "write target, empty origin" effect of a sideways liquid move. -/
theorem sidePair_GetNext (A : ParticleGrid) (x y tgtx : Int) (p : Particle)
    (hin : inB A x y) (hint : inB A tgtx y) (tx ty : Int) :
    ((A.SetNext tgtx y p).SetNext x y Particle.Empty).GetNext tx ty =
      if tx = x ∧ ty = y then Particle.Empty
      else if tx = tgtx ∧ ty = y then p else A.GetNext tx ty := by
  rw [GetNext_SetNext]
  by_cases hc : tx = x ∧ ty = y
  · rw [if_pos ⟨(inB_SetNext A tgtx y p x y).mpr hin, hc.1, hc.2⟩, if_pos hc]
  · rw [if_neg (by rintro ⟨-, h4, h5⟩; exact hc ⟨h4, h5⟩), if_neg hc, GetNext_SetNext]
    by_cases hc2 : tx = tgtx ∧ ty = y
    · rw [if_pos ⟨hint, hc2.1, hc2.2⟩, if_pos hc2]
    · rw [if_neg (by rintro ⟨-, h4, h5⟩; exact hc2 ⟨h4, h5⟩), if_neg hc2]

theorem UpdateWater_side (ts : TickState) (x y : Int)
    (hdown : CanMoveDown ts.g x y = false)
    (hside : CanMoveSide ts.g x y (randDir (ts.rng.headD 0)) = true) :
    UpdateWater ts x y =
      (({ ts with rng := ts.rng.tail } : TickState).setNextT
        (x + randDir (ts.rng.headD 0)) y Particle.Water).setNextT x y Particle.Empty := by
  unfold UpdateWater randNext
  rw [hdown, if_neg Bool.false_ne_true]
  dsimp only
  rw [hside, if_pos rfl]

theorem UpdateAcid_side (ts : TickState) (x y : Int)
    (hdown : CanMoveDown ts.g x y = false)
    (hside : CanMoveSide ts.g x y (randDir (ts.rng.headD 0)) = true) :
    UpdateAcid ts x y =
      (({ ts with rng := ts.rng.tail } : TickState).setNextT
        (x + randDir (ts.rng.headD 0)) y Particle.Acid).setNextT x y Particle.Empty := by
  unfold UpdateAcid randNext
  rw [hdown, if_neg Bool.false_ne_true]
  dsimp only
  rw [hside, if_pos rfl]

theorem UpdateLava_side (ts : TickState) (x y : Int)
    (hdown : CanMoveDown ts.g x y = false)
    (hside : CanMoveSide ts.g x y (randDir (ts.rng.headD 0)) = true) :
    UpdateLava ts x y =
      ((((({ ts with rng := ts.rng.tail } : TickState).setNextT
        (x + randDir (ts.rng.headD 0)) y Particle.Lava).setTempT
          (x + randDir (ts.rng.headD 0)) y 1000).setNextT x y
            Particle.Empty)).setTempT x y 1000 := by
  unfold UpdateLava randNext
  rw [hdown, if_neg Bool.false_ne_true]
  dsimp only
  rw [hside, if_pos rfl]

theorem UpdateOil_side (ts : TickState) (x y : Int)
    (hgate : (ts.rng.headD 0) % 2 = 0)
    (hdown : CanMoveDown ts.g x y = false)
    (hside : CanMoveSide ts.g x y (randDir (ts.rng.tail.headD 0)) = true) :
    UpdateOil ts x y =
      (({ ts with rng := ts.rng.tail.tail } : TickState).setNextT
        (x + randDir (ts.rng.tail.headD 0)) y Particle.Oil).setNextT x y Particle.Empty := by
  unfold UpdateOil randNext
  rw [if_pos hgate, hdown, if_neg Bool.false_ne_true]
  dsimp only
  rw [hside, if_pos rfl]

/-- The Lava variant of the write pair, with its forced temperature writes. -/
theorem sidePairLava_GetNext (A : ParticleGrid) (x y tgtx : Int)
    (hin : inB A x y) (hint : inB A tgtx y) (tx ty : Int) :
    (((((A.SetNext tgtx y Particle.Lava).SetTemperature tgtx y 1000).SetNext x y
      Particle.Empty)).SetTemperature x y 1000).GetNext tx ty =
      if tx = x ∧ ty = y then Particle.Empty
      else if tx = tgtx ∧ ty = y then Particle.Lava else A.GetNext tx ty := by
  rw [GetNext_SetTemperature, GetNext_SetNext]
  by_cases hc : tx = x ∧ ty = y
  · rw [if_pos ⟨(inB_SetTemperature _ tgtx y 1000 x y).mpr
      ((inB_SetNext A tgtx y Particle.Lava x y).mpr hin), hc.1, hc.2⟩, if_pos hc]
  · rw [if_neg (by rintro ⟨-, h4, h5⟩; exact hc ⟨h4, h5⟩), if_neg hc,
      GetNext_SetTemperature, GetNext_SetNext]
    by_cases hc2 : tx = tgtx ∧ ty = y
    · rw [if_pos ⟨hint, hc2.1, hc2.2⟩, if_pos hc2]
    · rw [if_neg (by rintro ⟨-, h4, h5⟩; exact hc2 ⟨h4, h5⟩), if_neg hc2]

/-- The Lava write pair leaves the same next buffer as the plain pair. -/
theorem lavaPair_nextGrid (A : ParticleGrid) (x y tgtx : Int)
    (hin : inB A x y) (hint : inB A tgtx y) :
    (((((A.SetNext tgtx y Particle.Lava).SetTemperature tgtx y 1000).SetNext x y
      Particle.Empty)).SetTemperature x y 1000).nextGrid =
      (A.nextGrid.set (cellIdx A.width tgtx y) Particle.Lava).set
        (cellIdx A.width x y) Particle.Empty := by
  rw [SetTemperature_nextGrid,
    SetNext_nextGrid_write Particle.Empty
      (by rw [oob_SetTemperature, oob_SetNext]; exact not_oob_iff.mpr hin),
    SetTemperature_nextGrid, SetTemperature_width, SetNext_width,
    SetNext_nextGrid_write Particle.Lava (not_oob_iff.mpr hint)]

/-- Claim C10: when one of the four liquids (Water, Acid, Lava, Oil) cannot
fall and flows sideways into a Steam cell, the Steam cell is overwritten with
the liquid and the origin becomes Empty — the Steam is destroyed rather than
swapped into the origin — so the Steam count of the next buffer strictly
decreases by one; the current buffer is untouched. -/
theorem C10_side_flow_destroys_steam (ts : TickState) (x y : Int) (p : Particle)
    (hliq : p = Particle.Water ∨ p = Particle.Acid ∨ p = Particle.Lava ∨ p = Particle.Oil)
    (hget : ts.g.Get x y = p)
    (hdown : CanMoveDown ts.g x y = false)
    (hgate : p = Particle.Oil → (ts.rng.headD 0) % 2 = 0)
    (hsteam : ts.g.Get (x + randDir (dirDraw ts p)) y = Particle.Steam)
    (hns : ts.g.GetNext (x + randDir (dirDraw ts p)) y = Particle.Steam)
    (hno : ts.g.GetNext x y ≠ Particle.Steam)
    (tx ty : Int) :
    ((liquidUpdate p ts x y).g.GetNext tx ty =
      if tx = x ∧ ty = y then Particle.Empty
      else if tx = x + randDir (dirDraw ts p) ∧ ty = y then p
      else ts.g.GetNext tx ty) ∧
    (liquidUpdate p ts x y).g.grid = ts.g.grid ∧
    steamCountNext (liquidUpdate p ts x y).g + 1 = steamCountNext ts.g := by
  have hin : inB ts.g x y := by
    refine inB_of_Get_eq ?_ hget
    rcases hliq with rfl | rfl | rfl | rfl <;> decide
  have hint : inB ts.g (x + randDir (dirDraw ts p)) y :=
    inB_of_Get_eq (by decide) hsteam
  have hxne : x ≠ x + randDir (dirDraw ts p) := by
    rcases randDir_cases (dirDraw ts p) with h | h <;> omega
  have hside : CanMoveSide ts.g x y (randDir (dirDraw ts p)) = true := by
    unfold CanMoveSide
    rw [hsteam]
    rfl
  have hpnotsteam : (p == Particle.Steam) = false := by
    rcases hliq with rfl | rfl | rfl | rfl <;> decide
  -- indices of target and origin
  have hlen1 : cellIdx ts.g.width (x + randDir (dirDraw ts p)) y < ts.g.nextGrid.length := by
    rw [ts.g.hnext]
    exact cellIdx_lt hint
  have hlen0 : cellIdx ts.g.width x y < ts.g.nextGrid.length := by
    rw [ts.g.hnext]
    exact cellIdx_lt hin
  have hine : cellIdx ts.g.width x y ≠ cellIdx ts.g.width (x + randDir (dirDraw ts p)) y := by
    intro hidx
    exact hxne ((cellIdx_inj hin hint).mp hidx).1
  have hs1 : (ts.g.nextGrid.getD (cellIdx ts.g.width (x + randDir (dirDraw ts p)) y)
      Particle.Stone == Particle.Steam) = true := by
    rw [getD_eq_GetNext hint, hns]
    rfl
  have hs0 : (ts.g.nextGrid.getD (cellIdx ts.g.width x y) Particle.Stone ==
      Particle.Steam) = false := by
    rw [getD_eq_GetNext hin]
    exact beq_eq_false_iff_ne.mpr hno
  -- reduce each liquid's update to the common write pair and conclude
  have main : ∀ B : ParticleGrid, B = (ts.g.SetNext (x + randDir (dirDraw ts p)) y
        p).SetNext x y Particle.Empty →
      (B.GetNext tx ty =
        if tx = x ∧ ty = y then Particle.Empty
        else if tx = x + randDir (dirDraw ts p) ∧ ty = y then p
        else ts.g.GetNext tx ty) ∧
      B.grid = ts.g.grid ∧
      steamCountNext B + 1 = steamCountNext ts.g := by
    rintro B rfl
    refine ⟨sidePair_GetNext ts.g x y _ p hin hint tx ty, by simp, ?_⟩
    unfold steamCountNext
    rw [SetNext_nextGrid_write Particle.Empty
      (by rw [oob_SetNext]; exact not_oob_iff.mpr hin), SetNext_width,
      SetNext_nextGrid_write p (not_oob_iff.mpr hint)]
    exact countSteam_pair ts.g.nextGrid _ _ p hpnotsteam hlen1 hlen0 hine hs1 hs0
  rcases hliq with rfl | rfl | rfl | rfl
  · rw [show liquidUpdate Particle.Water ts x y = UpdateWater ts x y from rfl,
      UpdateWater_side ts x y hdown hside]
    exact main _ rfl
  · rw [show liquidUpdate Particle.Acid ts x y = UpdateAcid ts x y from rfl,
      UpdateAcid_side ts x y hdown hside]
    exact main _ rfl
  · rw [show liquidUpdate Particle.Lava ts x y = UpdateLava ts x y from rfl,
      UpdateLava_side ts x y hdown hside]
    dsimp only [TickState.setNextT, TickState.setTempT]
    simp only [show dirDraw ts Particle.Lava = ts.rng.headD 0 from rfl] at hint hs1 hlen1 hine ⊢
    refine ⟨sidePairLava_GetNext ts.g x y _ hin hint tx ty, by simp, ?_⟩
    unfold steamCountNext
    rw [lavaPair_nextGrid ts.g x y (x + randDir (ts.rng.headD 0)) hin hint]
    exact countSteam_pair ts.g.nextGrid _ _ Particle.Lava hpnotsteam hlen1 hlen0 hine hs1 hs0
  · rw [show liquidUpdate Particle.Oil ts x y = UpdateOil ts x y from rfl,
      UpdateOil_side ts x y (hgate rfl) hdown hside]
    exact main _ rfl

/-- Witness for C10: Water at (2, 2) flows right into the Steam at (3, 2). -/
theorem C10_side_flow_destroys_steam_witness :
    (Particle.Water = Particle.Water ∨ Particle.Water = Particle.Acid ∨
      Particle.Water = Particle.Lava ∨ Particle.Water = Particle.Oil) ∧
    tsC10.g.Get 2 2 = Particle.Water ∧
    CanMoveDown tsC10.g 2 2 = false ∧
    (Particle.Water = Particle.Oil → (tsC10.rng.headD 0) % 2 = 0) ∧
    tsC10.g.Get (2 + randDir (dirDraw tsC10 Particle.Water)) 2 = Particle.Steam ∧
    tsC10.g.GetNext (2 + randDir (dirDraw tsC10 Particle.Water)) 2 = Particle.Steam ∧
    tsC10.g.GetNext 2 2 ≠ Particle.Steam ∧
    (((liquidUpdate Particle.Water tsC10 2 2).g.GetNext 3 2 =
      if (3 : Int) = 2 ∧ (2 : Int) = 2 then Particle.Empty
      else if (3 : Int) = 2 + randDir (dirDraw tsC10 Particle.Water) ∧ (2 : Int) = 2 then
        Particle.Water
      else tsC10.g.GetNext 3 2) ∧
    (liquidUpdate Particle.Water tsC10 2 2).g.grid = tsC10.g.grid ∧
    steamCountNext (liquidUpdate Particle.Water tsC10 2 2).g + 1 = steamCountNext tsC10.g) :=
  ⟨Or.inl rfl, by decide, by decide, by decide, by decide, by decide, by decide,
    C10_side_flow_destroys_steam tsC10 2 2 Particle.Water (Or.inl rfl) (by decide) (by decide)
      (by decide) (by decide) (by decide) (by decide) 3 2⟩

/-! ## Claim C6: the Lava + Water reaction -/

set_option maxRecDepth 40000 in
/-- Claim C6: a Lava cell with a Water neighbor in the pre-tick snapshot
reacts: the reaction fires (so movement is skipped — `processCell` returns the
reaction's result), the Lava cell becomes Obsidian in the next buffer, the
FIRST Water neighbor in the fixed 8-offset scan order becomes Steam, and
nothing else — no other cell of the next buffer, no current-buffer cell, no
temperature, and no random draw — is touched by this rule instance.  The two
closing conjuncts run one full tick on a concrete grid: the Lava cell at
(2, 3) comes out Obsidian and its Water neighbor at (3, 3) comes out Steam. -/
theorem C6_lava_water_reaction (ts : TickState) (x y dx dy : Int)
    (hin : inB ts.g x y)
    (hlava : ts.g.Get x y = Particle.Lava)
    (hfind : neighborOffsets.find?
      (fun o => ts.g.Get (x + o.1) (y + o.2) == Particle.Water) = some (dx, dy))
    (tx ty : Int) :
    (ProcessReactions ts x y).1 = true ∧
    processCell ts x y = (ProcessReactions ts x y).2 ∧
    ((ProcessReactions ts x y).2.g.GetNext tx ty =
      if tx = x + dx ∧ ty = y + dy then Particle.Steam
      else if tx = x ∧ ty = y then Particle.Obsidian
      else ts.g.GetNext tx ty) ∧
    (ProcessReactions ts x y).2.g.grid = ts.g.grid ∧
    (ProcessReactions ts x y).2.g.temperature = ts.g.temperature ∧
    (ProcessReactions ts x y).2.rng = ts.rng ∧
    (doTick gLavaWater []).Get 2 3 = Particle.Obsidian ∧
    (doTick gLavaWater []).Get 3 3 = Particle.Steam := by
  have hpred := List.find?_some hfind
  have hwater : ts.g.Get (x + dx) (y + dy) = Particle.Water := by
    dsimp only at hpred
    exact beq_iff_eq.mp hpred
  have hcheck : ts.g.CheckNeighbor x y Particle.Water = true := by
    unfold ParticleGrid.CheckNeighbor
    rw [List.any_eq_true]
    exact ⟨(dx, dy), List.mem_of_find?_eq_some hfind, hpred⟩
  have hneq : ¬ (x + dx = x ∧ y + dy = y) := by
    rintro ⟨h1, h2⟩
    rw [h1, h2, hlava] at hwater
    cases hwater
  have hintW : inB ts.g (x + dx) (y + dy) := inB_of_Get_eq (by decide) hwater
  have hred : ProcessReactions ts x y =
      (true, (ts.setNextT x y Particle.Obsidian).setNextT (x + dx) (y + dy) Particle.Steam) := by
    unfold ProcessReactions
    rw [hlava]
    dsimp only
    rw [hcheck, if_pos rfl]
    unfold TickState.ReplaceNeighbor
    simp only [TickState.setNextT, Get_SetNext]
    rw [hfind]
  refine ⟨by rw [hred], ?_, ?_, by rw [hred]; simp [TickState.setNextT],
    by rw [hred]; simp [TickState.setNextT], by rw [hred]; rfl, by decide, by decide⟩
  · unfold processCell
    rw [hlava]
    dsimp only
    rw [if_neg (by decide), hred]
    dsimp only
    rw [if_pos rfl]
  · rw [hred]
    dsimp only [TickState.setNextT]
    rw [GetNext_SetNext]
    by_cases hc1 : tx = x + dx ∧ ty = y + dy
    · rw [if_pos ⟨(inB_SetNext ts.g x y Particle.Obsidian (x + dx) (y + dy)).mpr hintW,
        hc1.1, hc1.2⟩, if_pos hc1]
    · rw [if_neg (by rintro ⟨-, h4, h5⟩; exact hc1 ⟨h4, h5⟩), if_neg hc1, GetNext_SetNext]
      by_cases hc2 : tx = x ∧ ty = y
      · rw [if_pos ⟨hin, hc2.1, hc2.2⟩, if_pos hc2]
      · rw [if_neg (by rintro ⟨-, h4, h5⟩; exact hc2 ⟨h4, h5⟩), if_neg hc2]

/-- Witness for C6 over the concrete grid: Lava at (2, 3), first matching
Water neighbor at offset (1, 0), observed cell (3, 3). -/
theorem C6_lava_water_reaction_witness :
    inB tsC6.g 2 3 ∧ tsC6.g.Get 2 3 = Particle.Lava ∧
    neighborOffsets.find?
      (fun o => tsC6.g.Get (2 + o.1) (3 + o.2) == Particle.Water) = some (1, 0) ∧
    ((ProcessReactions tsC6 2 3).1 = true ∧
    processCell tsC6 2 3 = (ProcessReactions tsC6 2 3).2 ∧
    ((ProcessReactions tsC6 2 3).2.g.GetNext 3 3 =
      if (3 : Int) = 2 + 1 ∧ (3 : Int) = 3 + 0 then Particle.Steam
      else if (3 : Int) = 2 ∧ (3 : Int) = 3 then Particle.Obsidian
      else tsC6.g.GetNext 3 3) ∧
    (ProcessReactions tsC6 2 3).2.g.grid = tsC6.g.grid ∧
    (ProcessReactions tsC6 2 3).2.g.temperature = tsC6.g.temperature ∧
    (ProcessReactions tsC6 2 3).2.rng = tsC6.rng ∧
    (doTick gLavaWater []).Get 2 3 = Particle.Obsidian ∧
    (doTick gLavaWater []).Get 3 3 = Particle.Steam) :=
  ⟨by decide, by decide, by decide,
    C6_lava_water_reaction tsC6 2 3 1 0 (by decide) (by decide) (by decide) 3 3⟩

/-! ## Claim C7: the acid dissolution scan -/

@[simp] theorem acidDissolves_SetNext (g : ParticleGrid) (u v : Int) (p : Particle)
    (x y : Int) (o : Int × Int) :
    acidDissolves (g.SetNext u v p) x y o = acidDissolves g x y o := by
  unfold acidDissolves
  rw [SetNext_width, SetNext_height, Get_SetNext]

/-- The acid scan with only failing 1-in-8 draws: no reaction is reported, the
current buffer and temperatures are untouched, and the next buffer is emptied
exactly at the in-margin Sand/Ice neighbors listed in `offs`. -/
theorem acidScan_no_consume :
    ∀ (offs : List (Int × Int)) (ts : TickState) (x y : Int),
      offs.length ≤ ts.rng.length → (∀ r ∈ ts.rng, r % 8 ≠ 0) →
      (acidScan ts x y offs).1 = false ∧
      (acidScan ts x y offs).2.g.grid = ts.g.grid ∧
      (acidScan ts x y offs).2.g.temperature = ts.g.temperature ∧
      ∀ tx ty : Int, (acidScan ts x y offs).2.g.GetNext tx ty =
        if acidTargetedIn offs ts.g x y tx ty = true then Particle.Empty
        else ts.g.GetNext tx ty
  | [], ts, x, y, _, _ => by
    refine ⟨rfl, rfl, rfl, ?_⟩
    intro tx ty
    have h0 : acidTargetedIn [] ts.g x y tx ty = false := rfl
    rw [h0, if_neg (by simp)]
    rfl
  | o :: rest, ts, x, y, hlen, hfail => by
    have hlen' : rest.length ≤ ts.rng.length := by
      simp only [List.length_cons] at hlen
      omega
    unfold acidScan
    dsimp only
    by_cases hg : 0 < x + o.1 ∧ x + o.1 < (ts.g.width : Int) - 1 ∧ 0 < y + o.2 ∧
        y + o.2 < (ts.g.height : Int) - 2
    · rw [if_pos hg]
      by_cases hm : ts.g.Get (x + o.1) (y + o.2) = Particle.Sand ∨
          ts.g.Get (x + o.1) (y + o.2) = Particle.Ice
      · rw [if_pos hm]
        have hdo : acidDissolves ts.g x y o = true := by
          unfold acidDissolves
          rw [decide_eq_true hg]
          rcases hm with h | h <;> simp [h]
        have hinB : inB ts.g (x + o.1) (y + o.2) := by
          unfold inB
          obtain ⟨k1, k2, k3, k4⟩ := hg
          omega
        cases hts : ts.rng with
        | nil =>
          exfalso
          rw [hts] at hlen
          simp at hlen
        | cons r rs =>
          dsimp only [TickState.setNextT, randNext]
          rw [hts]
          simp only [List.headD_cons, List.tail_cons]
          have hr : r % 8 ≠ 0 := hfail r (by rw [hts]; exact List.mem_cons_self r rs)
          rw [if_neg hr]
          have hfail2 : ∀ r' ∈ rs, r' % 8 ≠ 0 := fun r' hm' =>
            hfail r' (by rw [hts]; exact List.mem_cons_of_mem r hm')
          have hlen2 : rest.length ≤ rs.length := by
            rw [hts] at hlen
            simp only [List.length_cons] at hlen
            omega
          have ih := acidScan_no_consume rest
            { g := ts.g.SetNext (x + o.1) (y + o.2) Particle.Empty, rng := rs } x y hlen2 hfail2
          refine ⟨ih.1, by rw [ih.2.1]; simp, by rw [ih.2.2.1]; simp, ?_⟩
          intro tx ty
          rw [ih.2.2.2 tx ty]
          dsimp only
          have hconseq : acidTargetedIn (o :: rest) ts.g x y tx ty =
              ((acidDissolves ts.g x y o && decide (tx = x + o.1 ∧ ty = y + o.2)) ||
                acidTargetedIn rest ts.g x y tx ty) := by
            unfold acidTargetedIn
            rw [List.any_cons]
          have htgt : acidTargetedIn rest
              (ts.g.SetNext (x + o.1) (y + o.2) Particle.Empty) x y tx ty =
              acidTargetedIn rest ts.g x y tx ty := by
            unfold acidTargetedIn
            simp only [acidDissolves_SetNext]
          rw [htgt, hconseq, hdo, Bool.true_and, GetNext_SetNext]
          by_cases hxy : tx = x + o.1 ∧ ty = y + o.2
          · by_cases hrest : acidTargetedIn rest ts.g x y tx ty = true
            · rw [if_pos hrest, if_pos (by rw [hrest]; simp)]
            · rw [if_neg hrest, if_pos ⟨hinB, hxy.1, hxy.2⟩,
                if_pos (by rw [decide_eq_true hxy]; simp)]
          · by_cases hrest : acidTargetedIn rest ts.g x y tx ty = true
            · rw [if_pos hrest, if_pos (by rw [hrest]; simp)]
            · rw [if_neg hrest, if_neg (by rintro ⟨-, h4, h5⟩; exact hxy ⟨h4, h5⟩),
                if_neg (by rw [decide_eq_false hxy, Bool.false_or]; exact hrest)]
      · rw [if_neg hm]
        push_neg at hm
        have hdo : acidDissolves ts.g x y o = false := by
          unfold acidDissolves
          rw [beq_eq_false_iff_ne.mpr hm.1, beq_eq_false_iff_ne.mpr hm.2]
          simp
        have ih := acidScan_no_consume rest ts x y hlen' hfail
        refine ⟨ih.1, ih.2.1, ih.2.2.1, ?_⟩
        intro tx ty
        rw [ih.2.2.2 tx ty]
        have hcons : acidTargetedIn (o :: rest) ts.g x y tx ty =
            acidTargetedIn rest ts.g x y tx ty := by
          unfold acidTargetedIn
          rw [List.any_cons, hdo]
          simp
        rw [hcons]
    · rw [if_neg hg]
      have hdo : acidDissolves ts.g x y o = false := by
        unfold acidDissolves
        rw [decide_eq_false hg]
        simp
      have ih := acidScan_no_consume rest ts x y hlen' hfail
      refine ⟨ih.1, ih.2.1, ih.2.2.1, ?_⟩
      intro tx ty
      rw [ih.2.2.2 tx ty]
      have hcons : acidTargetedIn (o :: rest) ts.g x y tx ty =
          acidTargetedIn rest ts.g x y tx ty := by
        unfold acidTargetedIn
        rw [List.any_cons, hdo]
        simp
      rw [hcons]

/-- C7: amended acid-dissolution behaviour. An Acid cell's reaction scans the
8 neighbor offsets in order, but a neighbor is dissolved only when it lies in
the interior margin `0 < nx < width-1`, `0 < ny < height-2` (row 0 and the
bottom rows are never dissolved), and a separate 1-in-8 draw is taken after
each dissolution, not once per scan: while every draw fails, no reaction is
reported, the current buffer and temperatures are untouched, and the next
buffer is emptied exactly at the in-margin Sand/Ice neighbors; a successful
draw consumes the acid and aborts the scan, leaving later Sand/Ice neighbors
undissolved, as the concrete `tsAbort` run shows. -/
theorem C7_acid_dissolution (ts : TickState) (x y : Int)
    (hacid : ts.g.Get x y = Particle.Acid)
    (hlen : neighborOffsets.length ≤ ts.rng.length)
    (hfail : ∀ r ∈ ts.rng, r % 8 ≠ 0) :
    ((ProcessReactions ts x y).1 = false ∧
      (ProcessReactions ts x y).2.g.grid = ts.g.grid ∧
      (ProcessReactions ts x y).2.g.temperature = ts.g.temperature ∧
      ∀ tx ty : Int, (ProcessReactions ts x y).2.g.GetNext tx ty =
        if acidTargeted ts.g x y tx ty = true then Particle.Empty
        else ts.g.GetNext tx ty) ∧
    (tsAbort.g.Get 2 2 = Particle.Acid ∧
      acidDissolves tsAbort.g 2 2 (-1, -1) = true ∧
      acidDissolves tsAbort.g 2 2 (1, 1) = true ∧
      (ProcessReactions tsAbort 2 2).1 = true ∧
      (ProcessReactions tsAbort 2 2).2.g.GetNext 1 1 = Particle.Empty ∧
      (ProcessReactions tsAbort 2 2).2.g.GetNext 2 2 = Particle.Empty ∧
      (ProcessReactions tsAbort 2 2).2.g.GetNext 3 3 = Particle.Sand) := by
  refine ⟨?_, by decide⟩
  have hPR : ProcessReactions ts x y = acidScan ts x y neighborOffsets := by
    unfold ProcessReactions
    rw [hacid]
  have h := acidScan_no_consume neighborOffsets ts x y hlen hfail
  rw [hPR]
  exact ⟨h.1, h.2.1, h.2.2.1, fun tx ty => h.2.2.2 tx ty⟩

/-- C7 witness: the amended theorem applied to the concrete state `tsC7`
(Acid at (2, 2), Sand at (1, 1) and (3, 3), eight failing draws). -/
theorem C7_acid_dissolution_witness :
    tsC7.g.Get 2 2 = Particle.Acid ∧
    neighborOffsets.length ≤ tsC7.rng.length ∧
    (∀ r ∈ tsC7.rng, r % 8 ≠ 0) ∧
    (((ProcessReactions tsC7 2 2).1 = false ∧
      (ProcessReactions tsC7 2 2).2.g.grid = tsC7.g.grid ∧
      (ProcessReactions tsC7 2 2).2.g.temperature = tsC7.g.temperature ∧
      ∀ tx ty : Int, (ProcessReactions tsC7 2 2).2.g.GetNext tx ty =
        if acidTargeted tsC7.g 2 2 tx ty = true then Particle.Empty
        else tsC7.g.GetNext tx ty) ∧
    (tsAbort.g.Get 2 2 = Particle.Acid ∧
      acidDissolves tsAbort.g 2 2 (-1, -1) = true ∧
      acidDissolves tsAbort.g 2 2 (1, 1) = true ∧
      (ProcessReactions tsAbort 2 2).1 = true ∧
      (ProcessReactions tsAbort 2 2).2.g.GetNext 1 1 = Particle.Empty ∧
      (ProcessReactions tsAbort 2 2).2.g.GetNext 2 2 = Particle.Empty ∧
      (ProcessReactions tsAbort 2 2).2.g.GetNext 3 3 = Particle.Sand)) :=
  ⟨by decide, by decide, by decide,
    C7_acid_dissolution tsC7 2 2 (by decide) (by decide) (by decide)⟩

set_option maxRecDepth 40000 in
/-- C7 counterexample to the unrestricted claim: the Acid cell at (2, 1) has
an Ice neighbor at (2, 0), but the guard `ny > 0` in the acid scan excludes
row 0, so the Ice survives both the reaction call and a full tick, while the
claim requires every Sand or Ice neighbor to be turned to Empty. -/
theorem C7_row0_neighbor_not_dissolved :
    tsIce.g.Get 2 1 = Particle.Acid ∧
    tsIce.g.Get 2 0 = Particle.Ice ∧
    (ProcessReactions tsIce 2 1).2.g.GetNext 2 0 = Particle.Ice ∧
    (doTick gAcidIce [1, 1, 1, 1]).Get 2 0 = Particle.Ice := by
  decide

set_option maxRecDepth 40000 in
/-- C2: sand is not conserved. `gSand4` is a 6×6 grid whose non-boundary cells
hold only Sand and Empty (4 grains, boundary all Stone), yet one unpaused
`Update` call at speed 1 (which executes the tick) leaves only 3 grains: the
two upper grains both fall diagonally into the snapshot-Empty cell (2, 3), the
second next-buffer write overwrites the first, and both origins are emptied. -/
theorem C2_sand_count_drops :
    ((List.range 6).all fun (yn : Nat) => (List.range 6).all fun (xn : Nat) =>
      if boundaryCell gSand4 (xn : Int) (yn : Int) then
        gSand4.Get (xn : Int) (yn : Int) == Particle.Stone
      else
        (gSand4.Get (xn : Int) (yn : Int) == Particle.Sand ||
          gSand4.Get (xn : Int) (yn : Int) == Particle.Empty)) = true ∧
    gs0.isPaused = false ∧
    sandCount gSand4 = 4 ∧
    (gSand4.Update gs0 [0, 0, 1, 0]).1 = doTick gSand4 [0, 0, 1, 0] ∧
    sandCount (gSand4.Update gs0 [0, 0, 1, 0]).1 = 3 := by
  have ht := Update_tick gSand4 gs0 [0, 0, 1, 0] rfl
    (by rw [show gs0.timeSpeed = 1 from rfl, skipFrames_one]; decide)
  refine ⟨by decide, rfl, by decide, by rw [ht], ?_⟩
  rw [ht]
  decide

/-! ## Claim C3: the boundary invariant -/

theorem set_getD_stone (l : List Particle) (m j : Nat) :
    (l.set m Particle.Stone).getD j Particle.Stone =
      if j = m then Particle.Stone else l.getD j Particle.Stone := by
  by_cases h : j = m
  · subst h
    rw [if_pos rfl]
    by_cases hlt : j < l.length
    · exact listGetD_set_self hlt _ _
    · rw [List.getD_eq_default]
      rw [List.length_set]
      omega
  · rw [if_neg h, listGetD_set_ne (fun e => h e.symm)]

theorem foldl_writeNext2_fields (i1 i2 : Nat → Nat) :
    ∀ (L : List Nat) (g : ParticleGrid),
      (L.foldl (fun a k =>
        (a.writeNext (i1 k) Particle.Stone).writeNext (i2 k) Particle.Stone) g).grid = g.grid ∧
      (L.foldl (fun a k =>
        (a.writeNext (i1 k) Particle.Stone).writeNext (i2 k) Particle.Stone) g).width = g.width ∧
      (L.foldl (fun a k =>
        (a.writeNext (i1 k) Particle.Stone).writeNext (i2 k) Particle.Stone) g).height =
        g.height ∧
      (L.foldl (fun a k =>
        (a.writeNext (i1 k) Particle.Stone).writeNext (i2 k) Particle.Stone) g).temperature =
        g.temperature
  | [], g => ⟨rfl, rfl, rfl, rfl⟩
  | k :: L, g => by
    have ih := foldl_writeNext2_fields i1 i2 L
      ((g.writeNext (i1 k) Particle.Stone).writeNext (i2 k) Particle.Stone)
    rw [List.foldl_cons]
    exact ⟨ih.1, ih.2.1, ih.2.2.1, ih.2.2.2⟩

theorem foldl_writeNext2_getD (i1 i2 : Nat → Nat) :
    ∀ (L : List Nat) (g : ParticleGrid) (j : Nat),
      (L.foldl (fun a k =>
        (a.writeNext (i1 k) Particle.Stone).writeNext (i2 k) Particle.Stone) g).nextGrid.getD j
          Particle.Stone =
      if ∃ k ∈ L, j = i1 k ∨ j = i2 k then Particle.Stone
      else g.nextGrid.getD j Particle.Stone
  | [], g, j => by
    rw [if_neg]
    · rfl
    · rintro ⟨k, hk, -⟩
      exact absurd hk (List.not_mem_nil k)
  | k :: L, g, j => by
    rw [List.foldl_cons]
    rw [foldl_writeNext2_getD i1 i2 L
      ((g.writeNext (i1 k) Particle.Stone).writeNext (i2 k) Particle.Stone) j]
    have hset : (((g.writeNext (i1 k) Particle.Stone).writeNext (i2 k)
        Particle.Stone).nextGrid).getD j Particle.Stone =
        if j = i2 k then Particle.Stone
        else if j = i1 k then Particle.Stone else g.nextGrid.getD j Particle.Stone := by
      show ((g.nextGrid.set (i1 k) Particle.Stone).set (i2 k) Particle.Stone).getD j
          Particle.Stone = _
      rw [set_getD_stone, set_getD_stone]
    rw [hset]
    by_cases hL : ∃ m ∈ L, j = i1 m ∨ j = i2 m
    · obtain ⟨m, hm, hor⟩ := hL
      rw [if_pos ⟨m, hm, hor⟩, if_pos ⟨m, List.mem_cons_of_mem _ hm, hor⟩]
    · rw [if_neg hL]
      by_cases h2 : j = i2 k
      · rw [if_pos h2, if_pos ⟨k, List.mem_cons_self _ _, Or.inr h2⟩]
      · rw [if_neg h2]
        by_cases h1 : j = i1 k
        · rw [if_pos h1, if_pos ⟨k, List.mem_cons_self _ _, Or.inl h1⟩]
        · rw [if_neg h1, if_neg]
          rintro ⟨m, hm, hor⟩
          rcases List.mem_cons.mp hm with rfl | hm2
          · rcases hor with h | h
            · exact h1 h
            · exact h2 h
          · exact hL ⟨m, hm2, hor⟩

theorem GetNext_eq_getD (G : ParticleGrid) (x y : Int) (hin : inB G x y) :
    G.GetNext x y = G.nextGrid.getD (cellIdx G.width x y) Particle.Stone := by
  unfold ParticleGrid.GetNext
  rw [if_neg (not_oob_iff.mpr hin)]

theorem Get_eq_getD (G : ParticleGrid) (x y : Int) (hin : inB G x y) :
    G.Get x y = G.grid.getD (cellIdx G.width x y) Particle.Stone := by
  unfold ParticleGrid.Get
  rw [if_neg (not_oob_iff.mpr hin)]

theorem CreateGroundNext_fields (g : ParticleGrid) :
    g.CreateGroundNext.grid = g.grid ∧ g.CreateGroundNext.width = g.width ∧
    g.CreateGroundNext.height = g.height ∧ g.CreateGroundNext.temperature = g.temperature := by
  unfold ParticleGrid.CreateGroundNext
  have h1 := foldl_writeNext2_fields (fun k => (g.height - 1) * g.width + k)
    (fun k => (g.height - 2) * g.width + k) (List.range g.width) g
  have h2 := foldl_writeNext2_fields (fun k => k * g.width + 0)
    (fun k => k * g.width + (g.width - 1)) (List.range (g.height - 1))
    ((List.range g.width).foldl (fun a k =>
      (a.writeNext ((g.height - 1) * g.width + k) Particle.Stone).writeNext
        ((g.height - 2) * g.width + k) Particle.Stone) g)
  exact ⟨h2.1.trans h1.1, h2.2.1.trans h1.2.1, h2.2.2.1.trans h1.2.2.1,
    h2.2.2.2.trans h1.2.2.2⟩

theorem CreateGroundNext_GetNext_boundary (g : ParticleGrid) (x y : Int)
    (hin : inB g x y) (hb : boundaryCell g x y) :
    g.CreateGroundNext.GetNext x y = Particle.Stone := by
  have hf := CreateGroundNext_fields g
  have hin2 : inB g.CreateGroundNext x y := by
    unfold inB at hin ⊢
    rw [hf.2.1, hf.2.2.1]
    exact hin
  rw [GetNext_eq_getD _ _ _ hin2, hf.2.1]
  show (ParticleGrid.CreateGroundNext g).nextGrid.getD (cellIdx g.width x y) Particle.Stone =
    Particle.Stone
  unfold ParticleGrid.CreateGroundNext
  rw [foldl_writeNext2_getD (fun k => k * g.width + 0)
    (fun k => k * g.width + (g.width - 1)) (List.range (g.height - 1)),
    foldl_writeNext2_getD (fun k => (g.height - 1) * g.width + k)
      (fun k => (g.height - 2) * g.width + k) (List.range g.width)]
  obtain ⟨hx0, hxw, hy0, hyh⟩ := hin
  split_ifs with hc2 hc1
  · rfl
  · rfl
  · exfalso
    unfold boundaryCell at hb
    unfold cellIdx at hc1 hc2
    by_cases hy : (g.height : Int) - 2 ≤ y
    · refine hc1 ⟨x.toNat, List.mem_range.mpr (by omega), ?_⟩
      have : y.toNat = g.height - 1 ∨ y.toNat = g.height - 2 := by omega
      rcases this with h | h
      · exact Or.inl (by rw [h])
      · exact Or.inr (by rw [h])
    · rcases hb with h | h | h
      · exact hy h
      · refine hc2 ⟨y.toNat, List.mem_range.mpr (by omega), Or.inl ?_⟩
        have : x.toNat = 0 := by omega
        rw [this]
      · refine hc2 ⟨y.toNat, List.mem_range.mpr (by omega), Or.inr ?_⟩
        have : x.toNat = g.width - 1 := by omega
        rw [this]

theorem foldl_writeCur2_fields (i1 i2 : Nat → Nat) :
    ∀ (L : List Nat) (g : ParticleGrid),
      (L.foldl (fun a k =>
        (a.writeCur (i1 k) Particle.Stone).writeCur (i2 k) Particle.Stone) g).nextGrid =
        g.nextGrid ∧
      (L.foldl (fun a k =>
        (a.writeCur (i1 k) Particle.Stone).writeCur (i2 k) Particle.Stone) g).width = g.width ∧
      (L.foldl (fun a k =>
        (a.writeCur (i1 k) Particle.Stone).writeCur (i2 k) Particle.Stone) g).height =
        g.height ∧
      (L.foldl (fun a k =>
        (a.writeCur (i1 k) Particle.Stone).writeCur (i2 k) Particle.Stone) g).temperature =
        g.temperature
  | [], g => ⟨rfl, rfl, rfl, rfl⟩
  | k :: L, g => by
    have ih := foldl_writeCur2_fields i1 i2 L
      ((g.writeCur (i1 k) Particle.Stone).writeCur (i2 k) Particle.Stone)
    rw [List.foldl_cons]
    exact ⟨ih.1, ih.2.1, ih.2.2.1, ih.2.2.2⟩

theorem foldl_writeCur2_getD (i1 i2 : Nat → Nat) :
    ∀ (L : List Nat) (g : ParticleGrid) (j : Nat),
      (L.foldl (fun a k =>
        (a.writeCur (i1 k) Particle.Stone).writeCur (i2 k) Particle.Stone) g).grid.getD j
          Particle.Stone =
      if ∃ k ∈ L, j = i1 k ∨ j = i2 k then Particle.Stone
      else g.grid.getD j Particle.Stone
  | [], g, j => by
    rw [if_neg]
    · rfl
    · rintro ⟨k, hk, -⟩
      exact absurd hk (List.not_mem_nil k)
  | k :: L, g, j => by
    rw [List.foldl_cons]
    rw [foldl_writeCur2_getD i1 i2 L
      ((g.writeCur (i1 k) Particle.Stone).writeCur (i2 k) Particle.Stone) j]
    have hset : (((g.writeCur (i1 k) Particle.Stone).writeCur (i2 k)
        Particle.Stone).grid).getD j Particle.Stone =
        if j = i2 k then Particle.Stone
        else if j = i1 k then Particle.Stone else g.grid.getD j Particle.Stone := by
      show ((g.grid.set (i1 k) Particle.Stone).set (i2 k) Particle.Stone).getD j
          Particle.Stone = _
      rw [set_getD_stone, set_getD_stone]
    rw [hset]
    by_cases hL : ∃ m ∈ L, j = i1 m ∨ j = i2 m
    · obtain ⟨m, hm, hor⟩ := hL
      rw [if_pos ⟨m, hm, hor⟩, if_pos ⟨m, List.mem_cons_of_mem _ hm, hor⟩]
    · rw [if_neg hL]
      by_cases h2 : j = i2 k
      · rw [if_pos h2, if_pos ⟨k, List.mem_cons_self _ _, Or.inr h2⟩]
      · rw [if_neg h2]
        by_cases h1 : j = i1 k
        · rw [if_pos h1, if_pos ⟨k, List.mem_cons_self _ _, Or.inl h1⟩]
        · rw [if_neg h1, if_neg]
          rintro ⟨m, hm, hor⟩
          rcases List.mem_cons.mp hm with rfl | hm2
          · rcases hor with h | h
            · exact h1 h
            · exact h2 h
          · exact hL ⟨m, hm2, hor⟩

theorem CreateGround_fields (g : ParticleGrid) :
    g.CreateGround.nextGrid = g.nextGrid ∧ g.CreateGround.width = g.width ∧
    g.CreateGround.height = g.height ∧ g.CreateGround.temperature = g.temperature := by
  unfold ParticleGrid.CreateGround
  have h1 := foldl_writeCur2_fields (fun k => (g.height - 1) * g.width + k)
    (fun k => (g.height - 2) * g.width + k) (List.range g.width) g
  have h2 := foldl_writeCur2_fields (fun k => k * g.width + 0)
    (fun k => k * g.width + (g.width - 1)) (List.range (g.height - 1))
    ((List.range g.width).foldl (fun a k =>
      (a.writeCur ((g.height - 1) * g.width + k) Particle.Stone).writeCur
        ((g.height - 2) * g.width + k) Particle.Stone) g)
  exact ⟨h2.1.trans h1.1, h2.2.1.trans h1.2.1, h2.2.2.1.trans h1.2.2.1,
    h2.2.2.2.trans h1.2.2.2⟩

theorem CreateGround_Get_boundary (g : ParticleGrid) (x y : Int)
    (hin : inB g x y) (hb : boundaryCell g x y) :
    g.CreateGround.Get x y = Particle.Stone := by
  have hf := CreateGround_fields g
  have hin2 : inB g.CreateGround x y := by
    unfold inB at hin ⊢
    rw [hf.2.1, hf.2.2.1]
    exact hin
  rw [Get_eq_getD _ _ _ hin2, hf.2.1]
  show (ParticleGrid.CreateGround g).grid.getD (cellIdx g.width x y) Particle.Stone =
    Particle.Stone
  unfold ParticleGrid.CreateGround
  rw [foldl_writeCur2_getD (fun k => k * g.width + 0)
    (fun k => k * g.width + (g.width - 1)) (List.range (g.height - 1)),
    foldl_writeCur2_getD (fun k => (g.height - 1) * g.width + k)
      (fun k => (g.height - 2) * g.width + k) (List.range g.width)]
  obtain ⟨hx0, hxw, hy0, hyh⟩ := hin
  split_ifs with hc2 hc1
  · rfl
  · rfl
  · exfalso
    unfold boundaryCell at hb
    unfold cellIdx at hc1 hc2
    by_cases hy : (g.height : Int) - 2 ≤ y
    · refine hc1 ⟨x.toNat, List.mem_range.mpr (by omega), ?_⟩
      have : y.toNat = g.height - 1 ∨ y.toNat = g.height - 2 := by omega
      rcases this with h | h
      · exact Or.inl (by rw [h])
      · exact Or.inr (by rw [h])
    · rcases hb with h | h | h
      · exact hy h
      · refine hc2 ⟨y.toNat, List.mem_range.mpr (by omega), Or.inl ?_⟩
        have : x.toNat = 0 := by omega
        rw [this]
      · refine hc2 ⟨y.toNat, List.mem_range.mpr (by omega), Or.inr ?_⟩
        have : x.toNat = g.width - 1 := by omega
        rw [this]

theorem Clear_fields (g : ParticleGrid) :
    g.Clear.width = g.width ∧ g.Clear.height = g.height ∧
    g.Clear.nextGrid = List.replicate (g.width * g.height) Particle.Empty := by
  unfold ParticleGrid.Clear
  have h := CreateGround_fields
    { width := g.width, height := g.height,
      grid := List.replicate (g.width * g.height) Particle.Empty,
      nextGrid := List.replicate (g.width * g.height) Particle.Empty,
      temperature := List.replicate (g.width * g.height) 20,
      hgrid := List.length_replicate _ _,
      hnext := List.length_replicate _ _,
      htemp := List.length_replicate _ _ }
  exact ⟨h.2.1, h.2.2.1, h.1⟩

theorem nextBlank_of_replicate (G : ParticleGrid)
    (h : G.nextGrid = List.replicate (G.width * G.height) Particle.Empty) : nextBlank G := by
  intro x y hin
  rw [GetNext_eq_getD _ _ _ hin, h, List.getD_eq_getElem?_getD, List.getElem?_replicate,
    if_pos (cellIdx_lt hin)]
  rfl

theorem Clear_bdryStone (g : ParticleGrid) : bdryStone g.Clear := by
  intro x y hin hb
  unfold ParticleGrid.Clear at hin hb ⊢
  refine CreateGround_Get_boundary _ x y ?_ ?_
  · unfold inB at hin ⊢
    rwa [(CreateGround_fields _).2.1, (CreateGround_fields _).2.2.1] at hin
  · unfold boundaryCell at hb ⊢
    rwa [(CreateGround_fields _).2.1, (CreateGround_fields _).2.2.1] at hb

theorem Clear_nextBlank (g : ParticleGrid) : nextBlank g.Clear := by
  apply nextBlank_of_replicate
  have h := Clear_fields g
  rw [h.1, h.2.1, h.2.2]

theorem mkGrid_bdryStone (w h : Nat) : bdryStone (mkGrid w h) := by
  intro x y hin hb
  unfold mkGrid at hin hb ⊢
  refine CreateGround_Get_boundary _ x y ?_ ?_
  · unfold inB at hin ⊢
    rwa [(CreateGround_fields _).2.1, (CreateGround_fields _).2.2.1] at hin
  · unfold boundaryCell at hb ⊢
    rwa [(CreateGround_fields _).2.1, (CreateGround_fields _).2.2.1] at hb

theorem mkGrid_nextBlank (w h : Nat) : nextBlank (mkGrid w h) := by
  apply nextBlank_of_replicate
  unfold mkGrid
  have h1 := CreateGround_fields (ParticleGrid.Clear
    { width := w, height := h,
      grid := List.replicate (w * h) Particle.Empty,
      nextGrid := List.replicate (w * h) Particle.Empty,
      temperature := List.replicate (w * h) 0,
      hgrid := List.length_replicate _ _,
      hnext := List.length_replicate _ _,
      htemp := List.length_replicate _ _ })
  have h2 := Clear_fields
    { width := w, height := h,
      grid := List.replicate (w * h) Particle.Empty,
      nextGrid := List.replicate (w * h) Particle.Empty,
      temperature := List.replicate (w * h) 0,
      hgrid := List.length_replicate _ _,
      hnext := List.length_replicate _ _,
      htemp := List.length_replicate _ _ }
  rw [h1.1, h1.2.1, h1.2.2.1, h2.1, h2.2.1, h2.2.2]

theorem bdryStone_Set (g : ParticleGrid) (u v : Int) (p : Particle)
    (h : bdryStone g) : bdryStone (g.Set u v p) := by
  intro x y hin hb
  have hin2 : inB g x y := (inB_Set g u v p x y).mp hin
  have hb2 : boundaryCell g x y := by
    unfold boundaryCell at hb ⊢
    rwa [Set_width, Set_height] at hb
  rw [Get_Set, if_neg]
  · exact h x y hin2 hb2
  · rintro ⟨-, hnb, rfl, rfl⟩
    exact hnb hb2

theorem bdryStoneNext_Set (g : ParticleGrid) (u v : Int) (p : Particle)
    (h : bdryStoneNext g) : bdryStoneNext (g.Set u v p) := by
  intro x y hin hb
  have hin2 : inB g x y := (inB_Set g u v p x y).mp hin
  have hb2 : boundaryCell g x y := by
    unfold boundaryCell at hb ⊢
    rwa [Set_width, Set_height] at hb
  rw [GetNext_Set]
  exact h x y hin2 hb2

theorem nextBlank_Set (g : ParticleGrid) (u v : Int) (p : Particle)
    (h : nextBlank g) : nextBlank (g.Set u v p) := by
  intro x y hin
  rw [GetNext_Set]
  exact h x y ((inB_Set g u v p x y).mp hin)

theorem bdryStone_SetTemperature (g : ParticleGrid) (u v : Int) (t : Int)
    (h : bdryStone g) : bdryStone (g.SetTemperature u v t) := by
  intro x y hin hb
  have hin2 : inB g x y := (inB_SetTemperature g u v t x y).mp hin
  have hb2 : boundaryCell g x y := by
    unfold boundaryCell at hb ⊢
    rwa [SetTemperature_width, SetTemperature_height] at hb
  rw [Get_SetTemperature]
  exact h x y hin2 hb2

theorem bdryStoneNext_SetTemperature (g : ParticleGrid) (u v : Int) (t : Int)
    (h : bdryStoneNext g) : bdryStoneNext (g.SetTemperature u v t) := by
  intro x y hin hb
  have hin2 : inB g x y := (inB_SetTemperature g u v t x y).mp hin
  have hb2 : boundaryCell g x y := by
    unfold boundaryCell at hb ⊢
    rwa [SetTemperature_width, SetTemperature_height] at hb
  rw [GetNext_SetTemperature]
  exact h x y hin2 hb2

theorem nextBlank_SetTemperature (g : ParticleGrid) (u v : Int) (t : Int)
    (h : nextBlank g) : nextBlank (g.SetTemperature u v t) := by
  intro x y hin
  rw [GetNext_SetTemperature]
  exact h x y ((inB_SetTemperature g u v t x y).mp hin)

theorem Set_pres (g : ParticleGrid) (u v : Int) (p : Particle)
    (h : bdryStone g ∧ (bdryStoneNext g ∨ nextBlank g)) :
    bdryStone (g.Set u v p) ∧ (bdryStoneNext (g.Set u v p) ∨ nextBlank (g.Set u v p)) := by
  refine ⟨bdryStone_Set g u v p h.1, ?_⟩
  rcases h.2 with h2 | h2
  · exact Or.inl (bdryStoneNext_Set g u v p h2)
  · exact Or.inr (nextBlank_Set g u v p h2)

theorem SetTemperature_pres (g : ParticleGrid) (u v : Int) (t : Int)
    (h : bdryStone g ∧ (bdryStoneNext g ∨ nextBlank g)) :
    bdryStone (g.SetTemperature u v t) ∧
      (bdryStoneNext (g.SetTemperature u v t) ∨ nextBlank (g.SetTemperature u v t)) := by
  refine ⟨bdryStone_SetTemperature g u v t h.1, ?_⟩
  rcases h.2 with h2 | h2
  · exact Or.inl (bdryStoneNext_SetTemperature g u v t h2)
  · exact Or.inr (nextBlank_SetTemperature g u v t h2)

theorem foldl_preserves {α : Type} (P : ParticleGrid → Prop) (f : ParticleGrid → α → ParticleGrid)
    (hf : ∀ a e, P a → P (f a e)) :
    ∀ (L : List α) (g : ParticleGrid), P g → P (L.foldl f g)
  | [], _, hg => hg
  | e :: L, g, hg => by
    rw [List.foldl_cons]
    exact foldl_preserves P f hf L (f g e) (hf g e hg)

theorem brushStep_pres (x y : Int) (p : Particle) (r : Int) (a2 : ParticleGrid) (dx dy : Int)
    (h : bdryStone a2 ∧ (bdryStoneNext a2 ∨ nextBlank a2)) :
    bdryStone (brushStep x y p r a2 dx dy) ∧
      (bdryStoneNext (brushStep x y p r a2 dx dy) ∨ nextBlank (brushStep x y p r a2 dx dy)) := by
  unfold brushStep
  split_ifs with h1 h2 h3
  · exact SetTemperature_pres _ _ _ _ (Set_pres _ _ _ _ h)
  · exact h
  · exact h
  · exact h

theorem AddParticle_pres (g : ParticleGrid) (x y : Int) (p : Particle) (brush : Int)
    (h : bdryStone g ∧ (bdryStoneNext g ∨ nextBlank g)) :
    bdryStone (g.AddParticle x y p brush) ∧
      (bdryStoneNext (g.AddParticle x y p brush) ∨ nextBlank (g.AddParticle x y p brush)) := by
  unfold ParticleGrid.AddParticle
  refine foldl_preserves (fun G => bdryStone G ∧ (bdryStoneNext G ∨ nextBlank G)) _ ?_ _ _ h
  intro a dy ha
  refine foldl_preserves (fun G => bdryStone G ∧ (bdryStoneNext G ∨ nextBlank G)) _ ?_ _ _ ha
  intro a2 dx ha2
  exact brushStep_pres x y p _ a2 dx dy ha2

theorem loadRow_pres (g : ParticleGrid) (line : List Char) (yy : Int)
    (h : bdryStone g ∧ (bdryStoneNext g ∨ nextBlank g)) :
    bdryStone (loadRow g line yy) ∧
      (bdryStoneNext (loadRow g line yy) ∨ nextBlank (loadRow g line yy)) := by
  unfold loadRow
  refine foldl_preserves (fun G => bdryStone G ∧ (bdryStoneNext G ∨ nextBlank G)) _ ?_ _ _ h
  intro a k ha
  dsimp only
  split_ifs
  · exact Set_pres _ _ _ _ ha
  · exact Set_pres _ _ _ _ ha

theorem loadLines_pres :
    ∀ (lines : List (List Char)) (g : ParticleGrid) (yy : Int),
      bdryStone g ∧ (bdryStoneNext g ∨ nextBlank g) →
      bdryStone (loadLines g lines yy) ∧
        (bdryStoneNext (loadLines g lines yy) ∨ nextBlank (loadLines g lines yy))
  | [], _, _, h => h
  | line :: rest, g, yy, h => by
    unfold loadLines
    split_ifs with h1 h2
    · exact h
    · exact loadLines_pres rest g yy h
    · exact loadLines_pres rest (loadRow g line yy) (yy + 1) (loadRow_pres g line yy h)

theorem LoadFromFile_pres (g : ParticleGrid) (lines : List (List Char)) :
    bdryStone (g.LoadFromFile lines) ∧
      (bdryStoneNext (g.LoadFromFile lines) ∨ nextBlank (g.LoadFromFile lines)) := by
  unfold ParticleGrid.LoadFromFile
  exact loadLines_pres lines g.Clear 0 ⟨Clear_bdryStone g, Or.inr (Clear_nextBlank g)⟩

theorem Update_fst_cases (g : ParticleGrid) (gs : GameState) (rng : List Nat) :
    (g.Update gs rng).1 = g ∨ (g.Update gs rng).1 = doTick g rng := by
  unfold ParticleGrid.Update
  dsimp only
  split_ifs
  · exact Or.inl rfl
  · exact Or.inl rfl
  · exact Or.inr rfl

theorem Get_swapBuffers (g : ParticleGrid) (x y : Int) :
    g.swapBuffers.Get x y = g.GetNext x y := rfl

theorem GetNext_swapBuffers (g : ParticleGrid) (x y : Int) :
    g.swapBuffers.GetNext x y = g.Get x y := rfl

theorem swapBuffers_width (g : ParticleGrid) : g.swapBuffers.width = g.width := rfl

theorem swapBuffers_height (g : ParticleGrid) : g.swapBuffers.height = g.height := rfl

theorem CanMoveDown_ne_stone {g : ParticleGrid} {x y : Int}
    (h : CanMoveDown g x y = true) : g.Get x (y + 1) ≠ Particle.Stone := by
  intro hs
  simp only [CanMoveDown] at h
  rw [hs] at h
  simp at h

theorem CanMoveSide_ne_stone {g : ParticleGrid} {x y dir : Int}
    (h : CanMoveSide g x y dir = true) : g.Get (x + dir) y ≠ Particle.Stone := by
  intro hs
  simp only [CanMoveSide] at h
  rw [hs] at h
  exact absurd h (by decide)

theorem ne_stone_of_beq_empty {g : ParticleGrid} {u v : Int}
    (h : (g.Get u v == Particle.Empty) = true) : g.Get u v ≠ Particle.Stone := by
  rw [eq_of_beq h]
  decide

theorem ne_stone_of_beq_or {g : ParticleGrid} {u v : Int}
    (h : (g.Get u v == Particle.Empty || g.Get u v == Particle.Steam) = true) :
    g.Get u v ≠ Particle.Stone := by
  intro hs
  rw [hs] at h
  exact absurd h (by decide)

theorem UpdateSand_frame (ts : TickState) (x y tx ty : Int)
    (hself : ts.g.Get x y ≠ Particle.Stone)
    (hst : ts.g.Get tx ty = Particle.Stone) :
    (UpdateSand ts x y).g.grid = ts.g.grid ∧
    (UpdateSand ts x y).g.width = ts.g.width ∧
    (UpdateSand ts x y).g.height = ts.g.height ∧
    (UpdateSand ts x y).g.GetNext tx ty = ts.g.GetNext tx ty := by
  unfold UpdateSand
  dsimp only [TickState.setNextT, randNext]
  split_ifs with h1 h2 h3 h4 h5 h6
  · refine ⟨by simp, by simp, by simp, ?_⟩
    rw [GetNext_SetNext, if_neg (by rintro ⟨-, rfl, rfl⟩; exact hself hst),
      GetNext_SetNext, if_neg (by rintro ⟨-, rfl, rfl⟩; exact CanMoveDown_ne_stone h1 hst)]
  · refine ⟨by simp, by simp, by simp, ?_⟩
    rw [GetNext_SetNext, if_neg (by rintro ⟨-, rfl, rfl⟩; exact hself hst),
      GetNext_SetNext, if_neg (by rintro ⟨-, rfl, rfl⟩; exact CanMoveDown_ne_stone h1 hst)]
  · refine ⟨by simp, by simp, by simp, ?_⟩
    rw [GetNext_SetNext, if_neg (by rintro ⟨-, rfl, rfl⟩; exact hself hst),
      GetNext_SetNext, if_neg (by rintro ⟨-, rfl, rfl⟩; exact ne_stone_of_beq_or h3 hst)]
  · refine ⟨by simp, by simp, by simp, ?_⟩
    rw [GetNext_SetNext, if_neg (by rintro ⟨-, rfl, rfl⟩; exact hself hst),
      GetNext_SetNext, if_neg (by rintro ⟨-, rfl, rfl⟩; exact ne_stone_of_beq_or h3 hst)]
  · refine ⟨by simp, by simp, by simp, ?_⟩
    rw [GetNext_SetNext, if_neg (by rintro ⟨-, rfl, rfl⟩; exact hself hst),
      GetNext_SetNext, if_neg (by rintro ⟨-, rfl, rfl⟩; exact ne_stone_of_beq_or h5 hst)]
  · refine ⟨by simp, by simp, by simp, ?_⟩
    rw [GetNext_SetNext, if_neg (by rintro ⟨-, rfl, rfl⟩; exact hself hst),
      GetNext_SetNext, if_neg (by rintro ⟨-, rfl, rfl⟩; exact ne_stone_of_beq_or h5 hst)]
  · exact ⟨rfl, rfl, rfl, rfl⟩

theorem UpdateWater_frame (ts : TickState) (x y tx ty : Int)
    (hself : ts.g.Get x y ≠ Particle.Stone)
    (hst : ts.g.Get tx ty = Particle.Stone) :
    (UpdateWater ts x y).g.grid = ts.g.grid ∧
    (UpdateWater ts x y).g.width = ts.g.width ∧
    (UpdateWater ts x y).g.height = ts.g.height ∧
    (UpdateWater ts x y).g.GetNext tx ty = ts.g.GetNext tx ty := by
  unfold UpdateWater
  dsimp only [TickState.setNextT, randNext]
  split_ifs with h1 h2 h3 h4
  · refine ⟨by simp, by simp, by simp, ?_⟩
    rw [GetNext_SetNext, if_neg (by rintro ⟨-, rfl, rfl⟩; exact hself hst),
      GetNext_SetNext, if_neg (by rintro ⟨-, rfl, rfl⟩; exact CanMoveDown_ne_stone h1 hst)]
  · refine ⟨by simp, by simp, by simp, ?_⟩
    rw [GetNext_SetNext, if_neg (by rintro ⟨-, rfl, rfl⟩; exact hself hst),
      GetNext_SetNext, if_neg (by rintro ⟨-, rfl, rfl⟩; exact CanMoveDown_ne_stone h1 hst)]
  · refine ⟨by simp, by simp, by simp, ?_⟩
    rw [GetNext_SetNext, if_neg (by rintro ⟨-, rfl, rfl⟩; exact hself hst),
      GetNext_SetNext, if_neg (by rintro ⟨-, rfl, rfl⟩; exact CanMoveSide_ne_stone h3 hst)]
  · refine ⟨by simp, by simp, by simp, ?_⟩
    rw [GetNext_SetNext, if_neg (by rintro ⟨-, rfl, rfl⟩; exact hself hst),
      GetNext_SetNext, if_neg (by rintro ⟨-, rfl, rfl⟩; exact CanMoveSide_ne_stone h4 hst)]
  · exact ⟨rfl, rfl, rfl, rfl⟩

theorem UpdateAcid_frame (ts : TickState) (x y tx ty : Int)
    (hself : ts.g.Get x y ≠ Particle.Stone)
    (hst : ts.g.Get tx ty = Particle.Stone) :
    (UpdateAcid ts x y).g.grid = ts.g.grid ∧
    (UpdateAcid ts x y).g.width = ts.g.width ∧
    (UpdateAcid ts x y).g.height = ts.g.height ∧
    (UpdateAcid ts x y).g.GetNext tx ty = ts.g.GetNext tx ty := by
  unfold UpdateAcid
  dsimp only [TickState.setNextT, randNext]
  split_ifs with h1 h2 h3 h4
  · refine ⟨by simp, by simp, by simp, ?_⟩
    rw [GetNext_SetNext, if_neg (by rintro ⟨-, rfl, rfl⟩; exact hself hst),
      GetNext_SetNext, if_neg (by rintro ⟨-, rfl, rfl⟩; exact CanMoveDown_ne_stone h1 hst)]
  · refine ⟨by simp, by simp, by simp, ?_⟩
    rw [GetNext_SetNext, if_neg (by rintro ⟨-, rfl, rfl⟩; exact hself hst),
      GetNext_SetNext, if_neg (by rintro ⟨-, rfl, rfl⟩; exact CanMoveDown_ne_stone h1 hst)]
  · refine ⟨by simp, by simp, by simp, ?_⟩
    rw [GetNext_SetNext, if_neg (by rintro ⟨-, rfl, rfl⟩; exact hself hst),
      GetNext_SetNext, if_neg (by rintro ⟨-, rfl, rfl⟩; exact CanMoveSide_ne_stone h3 hst)]
  · refine ⟨by simp, by simp, by simp, ?_⟩
    rw [GetNext_SetNext, if_neg (by rintro ⟨-, rfl, rfl⟩; exact hself hst),
      GetNext_SetNext, if_neg (by rintro ⟨-, rfl, rfl⟩; exact CanMoveSide_ne_stone h4 hst)]
  · exact ⟨rfl, rfl, rfl, rfl⟩

theorem UpdateLava_frame (ts : TickState) (x y tx ty : Int)
    (hself : ts.g.Get x y ≠ Particle.Stone)
    (hst : ts.g.Get tx ty = Particle.Stone) :
    (UpdateLava ts x y).g.grid = ts.g.grid ∧
    (UpdateLava ts x y).g.width = ts.g.width ∧
    (UpdateLava ts x y).g.height = ts.g.height ∧
    (UpdateLava ts x y).g.GetNext tx ty = ts.g.GetNext tx ty := by
  unfold UpdateLava
  dsimp only [TickState.setNextT, TickState.setTempT, randNext]
  split_ifs with h1 h2 h3 h4
  · refine ⟨by simp, by simp, by simp, ?_⟩
    dsimp only
    rw [GetNext_SetTemperature,
      GetNext_SetNext, if_neg (by rintro ⟨-, rfl, rfl⟩; exact hself hst),
      GetNext_SetTemperature,
      GetNext_SetNext, if_neg (by rintro ⟨-, rfl, rfl⟩; exact CanMoveDown_ne_stone h1 hst)]
  · refine ⟨by simp, by simp, by simp, ?_⟩
    dsimp only
    rw [GetNext_SetTemperature,
      GetNext_SetNext, if_neg (by rintro ⟨-, rfl, rfl⟩; exact hself hst),
      GetNext_SetTemperature,
      GetNext_SetNext, if_neg (by rintro ⟨-, rfl, rfl⟩; exact CanMoveDown_ne_stone h1 hst)]
  · refine ⟨by simp, by simp, by simp, ?_⟩
    dsimp only
    rw [GetNext_SetTemperature,
      GetNext_SetNext, if_neg (by rintro ⟨-, rfl, rfl⟩; exact hself hst),
      GetNext_SetTemperature,
      GetNext_SetNext, if_neg (by rintro ⟨-, rfl, rfl⟩; exact CanMoveSide_ne_stone h3 hst)]
  · refine ⟨by simp, by simp, by simp, ?_⟩
    dsimp only
    rw [GetNext_SetTemperature,
      GetNext_SetNext, if_neg (by rintro ⟨-, rfl, rfl⟩; exact hself hst),
      GetNext_SetTemperature,
      GetNext_SetNext, if_neg (by rintro ⟨-, rfl, rfl⟩; exact CanMoveSide_ne_stone h4 hst)]
  · refine ⟨by simp, by simp, by simp, ?_⟩
    dsimp only
    rw [GetNext_SetTemperature]

theorem UpdateSteam_frame (ts : TickState) (x y tx ty : Int)
    (hself : ts.g.Get x y ≠ Particle.Stone)
    (hst : ts.g.Get tx ty = Particle.Stone) :
    (UpdateSteam ts x y).g.grid = ts.g.grid ∧
    (UpdateSteam ts x y).g.width = ts.g.width ∧
    (UpdateSteam ts x y).g.height = ts.g.height ∧
    (UpdateSteam ts x y).g.GetNext tx ty = ts.g.GetNext tx ty := by
  unfold UpdateSteam
  dsimp only [TickState.setNextT, randNext]
  split_ifs with h1 h2 h3 h4
  · refine ⟨by simp, by simp, by simp, ?_⟩
    rw [GetNext_SetNext, if_neg (by rintro ⟨-, rfl, rfl⟩; exact hself hst),
      GetNext_SetNext, if_neg (by rintro ⟨-, rfl, rfl⟩; exact ne_stone_of_beq_empty h1 hst)]
  · refine ⟨by simp, by simp, by simp, ?_⟩
    rw [GetNext_SetNext, if_neg (by rintro ⟨-, rfl, rfl⟩; exact hself hst),
      GetNext_SetNext, if_neg (by rintro ⟨-, rfl, rfl⟩; exact ne_stone_of_beq_empty h2 hst)]
  · refine ⟨by simp, by simp, by simp, ?_⟩
    rw [GetNext_SetNext, if_neg (by rintro ⟨-, rfl, rfl⟩; exact hself hst),
      GetNext_SetNext, if_neg (by rintro ⟨-, rfl, rfl⟩; exact ne_stone_of_beq_empty h3 hst)]
  · refine ⟨by simp, by simp, by simp, ?_⟩
    rw [GetNext_SetNext, if_neg (by rintro ⟨-, rfl, rfl⟩; exact hself hst)]
  · exact ⟨rfl, rfl, rfl, rfl⟩

theorem UpdateOil_frame (ts : TickState) (x y tx ty : Int)
    (hself : ts.g.Get x y ≠ Particle.Stone)
    (hst : ts.g.Get tx ty = Particle.Stone) :
    (UpdateOil ts x y).g.grid = ts.g.grid ∧
    (UpdateOil ts x y).g.width = ts.g.width ∧
    (UpdateOil ts x y).g.height = ts.g.height ∧
    (UpdateOil ts x y).g.GetNext tx ty = ts.g.GetNext tx ty := by
  unfold UpdateOil
  dsimp only [TickState.setNextT, randNext]
  split_ifs with h1 h2 h3 h4 h5
  · refine ⟨by simp, by simp, by simp, ?_⟩
    rw [GetNext_SetNext, if_neg (by rintro ⟨-, rfl, rfl⟩; exact hself hst),
      GetNext_SetNext, if_neg (by rintro ⟨-, rfl, rfl⟩; exact CanMoveDown_ne_stone h2 hst)]
  · refine ⟨by simp, by simp, by simp, ?_⟩
    rw [GetNext_SetNext, if_neg (by rintro ⟨-, rfl, rfl⟩; exact hself hst),
      GetNext_SetNext, if_neg (by rintro ⟨-, rfl, rfl⟩; exact CanMoveDown_ne_stone h2 hst)]
  · refine ⟨by simp, by simp, by simp, ?_⟩
    rw [GetNext_SetNext, if_neg (by rintro ⟨-, rfl, rfl⟩; exact hself hst),
      GetNext_SetNext, if_neg (by rintro ⟨-, rfl, rfl⟩; exact CanMoveSide_ne_stone h4 hst)]
  · refine ⟨by simp, by simp, by simp, ?_⟩
    rw [GetNext_SetNext, if_neg (by rintro ⟨-, rfl, rfl⟩; exact hself hst),
      GetNext_SetNext, if_neg (by rintro ⟨-, rfl, rfl⟩; exact CanMoveSide_ne_stone h5 hst)]
  · exact ⟨rfl, rfl, rfl, rfl⟩
  · exact ⟨rfl, rfl, rfl, rfl⟩

theorem UpdateFire_frame (ts : TickState) (x y tx ty : Int)
    (hself : ts.g.Get x y ≠ Particle.Stone)
    (hst : ts.g.Get tx ty = Particle.Stone) :
    (UpdateFire ts x y).g.grid = ts.g.grid ∧
    (UpdateFire ts x y).g.width = ts.g.width ∧
    (UpdateFire ts x y).g.height = ts.g.height ∧
    (UpdateFire ts x y).g.GetNext tx ty = ts.g.GetNext tx ty := by
  unfold UpdateFire
  dsimp only [TickState.setNextT, TickState.setTempT, randNext]
  by_cases c1 : (ts.g.Get x (y - 1) == Particle.Empty) = true
  · rw [if_pos c1]
    by_cases c2 : ts.rng.headD 0 % 3 = 0
    · rw [if_pos c2]
      dsimp only
      rw [if_neg (show ¬((!true) = true) by simp)]
      dsimp only
      rw [if_pos (show true = true from rfl)]
      dsimp only
      refine ⟨by simp, by simp, by simp, ?_⟩
      rw [GetNext_SetTemperature,
        GetNext_SetNext, if_neg (by rintro ⟨-, rfl, rfl⟩; exact hself hst),
        GetNext_SetTemperature,
        GetNext_SetNext, if_neg (by rintro ⟨-, rfl, rfl⟩; exact ne_stone_of_beq_empty c1 hst)]
    · rw [if_neg c2]
      dsimp only
      rw [if_pos (show (!false) = true by simp)]
      by_cases c3 : ts.rng.tail.headD 0 % 4 = 0
      · rw [if_pos c3]
        by_cases c4 : (ts.g.Get (x + randDir (ts.rng.tail.tail.headD 0)) y ==
            Particle.Empty) = true
        · rw [if_pos c4]
          dsimp only
          rw [if_pos (show true = true from rfl)]
          dsimp only
          refine ⟨by simp, by simp, by simp, ?_⟩
          rw [GetNext_SetTemperature,
            GetNext_SetNext, if_neg (by rintro ⟨-, rfl, rfl⟩; exact hself hst),
            GetNext_SetTemperature,
            GetNext_SetNext, if_neg (by rintro ⟨-, rfl, rfl⟩; exact ne_stone_of_beq_empty c4 hst)]
        · rw [if_neg c4]
          dsimp only
          rw [if_neg (show ¬(false = true) by simp)]
          dsimp only
          refine ⟨by simp, by simp, by simp, ?_⟩
          rw [GetNext_SetTemperature]
      · rw [if_neg c3]
        dsimp only
        rw [if_neg (show ¬(false = true) by simp)]
        dsimp only
        refine ⟨by simp, by simp, by simp, ?_⟩
        rw [GetNext_SetTemperature]
  · rw [if_neg c1]
    dsimp only
    rw [if_pos (show (!false) = true by simp)]
    by_cases c3 : ts.rng.headD 0 % 4 = 0
    · rw [if_pos c3]
      by_cases c4 : (ts.g.Get (x + randDir (ts.rng.tail.headD 0)) y == Particle.Empty) = true
      · rw [if_pos c4]
        dsimp only
        rw [if_pos (show true = true from rfl)]
        dsimp only
        refine ⟨by simp, by simp, by simp, ?_⟩
        rw [GetNext_SetTemperature,
          GetNext_SetNext, if_neg (by rintro ⟨-, rfl, rfl⟩; exact hself hst),
          GetNext_SetTemperature,
          GetNext_SetNext, if_neg (by rintro ⟨-, rfl, rfl⟩; exact ne_stone_of_beq_empty c4 hst)]
      · rw [if_neg c4]
        dsimp only
        rw [if_neg (show ¬(false = true) by simp)]
        dsimp only
        refine ⟨by simp, by simp, by simp, ?_⟩
        rw [GetNext_SetTemperature]
    · rw [if_neg c3]
      dsimp only
      rw [if_neg (show ¬(false = true) by simp)]
      dsimp only
      refine ⟨by simp, by simp, by simp, ?_⟩
      rw [GetNext_SetTemperature]

theorem UpdateSmoke_frame (ts : TickState) (x y tx ty : Int)
    (hself : ts.g.Get x y ≠ Particle.Stone)
    (hst : ts.g.Get tx ty = Particle.Stone) :
    (UpdateSmoke ts x y).g.grid = ts.g.grid ∧
    (UpdateSmoke ts x y).g.width = ts.g.width ∧
    (UpdateSmoke ts x y).g.height = ts.g.height ∧
    (UpdateSmoke ts x y).g.GetNext tx ty = ts.g.GetNext tx ty := by
  unfold UpdateSmoke
  dsimp only [TickState.setNextT, randNext]
  split_ifs with h1 h2 h3 h4 h5 h6 h7 h8 h9 h10 h11 h12 h13
  · dsimp only
    refine ⟨by simp, by simp, by simp, ?_⟩
    rw [GetNext_SetNext, if_neg (by rintro ⟨-, rfl, rfl⟩; exact hself hst),
      GetNext_SetNext, if_neg (by rintro ⟨-, rfl, rfl⟩; exact hself hst),
      GetNext_SetNext, if_neg (by rintro ⟨-, rfl, rfl⟩; exact ne_stone_of_beq_empty h1 hst)]
  · dsimp only
    refine ⟨by simp, by simp, by simp, ?_⟩
    rw [GetNext_SetNext, if_neg (by rintro ⟨-, rfl, rfl⟩; exact hself hst),
      GetNext_SetNext, if_neg (by rintro ⟨-, rfl, rfl⟩; exact ne_stone_of_beq_empty h1 hst)]
  · dsimp only
    refine ⟨by simp, by simp, by simp, ?_⟩
    rw [GetNext_SetNext, if_neg (by rintro ⟨-, rfl, rfl⟩; exact hself hst),
      GetNext_SetNext, if_neg (by rintro ⟨-, rfl, rfl⟩; exact hself hst),
      GetNext_SetNext, if_neg (by rintro ⟨-, rfl, rfl⟩; exact ne_stone_of_beq_empty h4.2 hst)]
  · dsimp only
    refine ⟨by simp, by simp, by simp, ?_⟩
    rw [GetNext_SetNext, if_neg (by rintro ⟨-, rfl, rfl⟩; exact hself hst),
      GetNext_SetNext, if_neg (by rintro ⟨-, rfl, rfl⟩; exact ne_stone_of_beq_empty h4.2 hst)]
  · dsimp only
    refine ⟨by simp, by simp, by simp, ?_⟩
    rw [GetNext_SetNext, if_neg (by rintro ⟨-, rfl, rfl⟩; exact hself hst)]
  · exact ⟨rfl, rfl, rfl, rfl⟩
  · dsimp only
    refine ⟨by simp, by simp, by simp, ?_⟩
    rw [GetNext_SetNext, if_neg (by rintro ⟨-, rfl, rfl⟩; exact hself hst)]
  · exact ⟨rfl, rfl, rfl, rfl⟩
  · dsimp only
    refine ⟨by simp, by simp, by simp, ?_⟩
    rw [GetNext_SetNext, if_neg (by rintro ⟨-, rfl, rfl⟩; exact hself hst),
      GetNext_SetNext, if_neg (by rintro ⟨-, rfl, rfl⟩; exact hself hst),
      GetNext_SetNext, if_neg (by rintro ⟨-, rfl, rfl⟩; exact ne_stone_of_beq_empty h9.2 hst)]
  · dsimp only
    refine ⟨by simp, by simp, by simp, ?_⟩
    rw [GetNext_SetNext, if_neg (by rintro ⟨-, rfl, rfl⟩; exact hself hst),
      GetNext_SetNext, if_neg (by rintro ⟨-, rfl, rfl⟩; exact ne_stone_of_beq_empty h9.2 hst)]
  · dsimp only
    refine ⟨by simp, by simp, by simp, ?_⟩
    rw [GetNext_SetNext, if_neg (by rintro ⟨-, rfl, rfl⟩; exact hself hst)]
  · exact ⟨rfl, rfl, rfl, rfl⟩
  · dsimp only
    refine ⟨by simp, by simp, by simp, ?_⟩
    rw [GetNext_SetNext, if_neg (by rintro ⟨-, rfl, rfl⟩; exact hself hst)]
  · exact ⟨rfl, rfl, rfl, rfl⟩

theorem ReplaceNeighbor_frame (ts : TickState) (x y : Int) (target repl : Particle)
    (tx ty : Int) (htar : target ≠ Particle.Stone)
    (hst : ts.g.Get tx ty = Particle.Stone) :
    (ts.ReplaceNeighbor x y target repl).g.grid = ts.g.grid ∧
    (ts.ReplaceNeighbor x y target repl).g.width = ts.g.width ∧
    (ts.ReplaceNeighbor x y target repl).g.height = ts.g.height ∧
    (ts.ReplaceNeighbor x y target repl).g.GetNext tx ty = ts.g.GetNext tx ty := by
  unfold TickState.ReplaceNeighbor
  cases hf : neighborOffsets.find? (fun o => ts.g.Get (x + o.1) (y + o.2) == target) with
  | none => exact ⟨rfl, rfl, rfl, rfl⟩
  | some o =>
    have hp := List.find?_some hf
    dsimp only [TickState.setNextT]
    refine ⟨by simp, by simp, by simp, ?_⟩
    rw [GetNext_SetNext, if_neg]
    rintro ⟨-, rfl, rfl⟩
    rw [hst] at hp
    exact htar (eq_of_beq hp).symm

theorem acidScan_frame :
    ∀ (offs : List (Int × Int)) (ts : TickState) (x y tx ty : Int),
      ts.g.Get x y ≠ Particle.Stone → ts.g.Get tx ty = Particle.Stone →
      (acidScan ts x y offs).2.g.grid = ts.g.grid ∧
      (acidScan ts x y offs).2.g.width = ts.g.width ∧
      (acidScan ts x y offs).2.g.height = ts.g.height ∧
      (acidScan ts x y offs).2.g.GetNext tx ty = ts.g.GetNext tx ty
  | [], _, _, _, _, _, _, _ => ⟨rfl, rfl, rfl, rfl⟩
  | o :: rest, ts, x, y, tx, ty, hself, hst => by
    unfold acidScan
    dsimp only [TickState.setNextT, randNext]
    split_ifs with h1 h2 h3
    · refine ⟨by simp, by simp, by simp, ?_⟩
      rw [GetNext_SetNext, if_neg (by rintro ⟨-, rfl, rfl⟩; exact hself hst),
        GetNext_SetNext, if_neg]
      rintro ⟨-, rfl, rfl⟩
      rcases h2 with h | h <;> rw [hst] at h <;> exact absurd h (by decide)
    · have hself2 : (TickState.mk (ts.g.SetNext (x + o.1) (y + o.2) Particle.Empty)
          ts.rng.tail).g.Get x y ≠ Particle.Stone := by
        simpa using hself
      have hst2 : (TickState.mk (ts.g.SetNext (x + o.1) (y + o.2) Particle.Empty)
          ts.rng.tail).g.Get tx ty = Particle.Stone := by
        simpa using hst
      have ih := acidScan_frame rest
        (TickState.mk (ts.g.SetNext (x + o.1) (y + o.2) Particle.Empty) ts.rng.tail)
        x y tx ty hself2 hst2
      refine ⟨by rw [ih.1]; simp, by rw [ih.2.1]; simp, by rw [ih.2.2.1]; simp, ?_⟩
      rw [ih.2.2.2]
      dsimp only
      rw [GetNext_SetNext, if_neg]
      rintro ⟨-, rfl, rfl⟩
      rcases h2 with h | h <;> rw [hst] at h <;> exact absurd h (by decide)
    · exact acidScan_frame rest ts x y tx ty hself hst
    · exact acidScan_frame rest ts x y tx ty hself hst

theorem ProcessReactions_frame (ts : TickState) (x y tx ty : Int)
    (hst : ts.g.Get tx ty = Particle.Stone) :
    (ProcessReactions ts x y).2.g.grid = ts.g.grid ∧
    (ProcessReactions ts x y).2.g.width = ts.g.width ∧
    (ProcessReactions ts x y).2.g.height = ts.g.height ∧
    (ProcessReactions ts x y).2.g.GetNext tx ty = ts.g.GetNext tx ty := by
  unfold ProcessReactions
  cases hget : ts.g.Get x y with
  | Empty => exact ⟨rfl, rfl, rfl, rfl⟩
  | Sand => exact ⟨rfl, rfl, rfl, rfl⟩
  | Stone => exact ⟨rfl, rfl, rfl, rfl⟩
  | Obsidian => exact ⟨rfl, rfl, rfl, rfl⟩
  | Smoke => exact ⟨rfl, rfl, rfl, rfl⟩
  | Lava =>
    dsimp only
    split_ifs with h1 h2
    · have hst1 : (ts.setNextT x y Particle.Obsidian).g.Get tx ty = Particle.Stone := by
        dsimp only [TickState.setNextT]
        simpa using hst
      have hr := ReplaceNeighbor_frame (ts.setNextT x y Particle.Obsidian) x y Particle.Water
        Particle.Steam tx ty (by decide) hst1
      refine ⟨?_, ?_, ?_, ?_⟩
      · rw [hr.1]
        dsimp only [TickState.setNextT]
        simp
      · rw [hr.2.1]
        dsimp only [TickState.setNextT]
        simp
      · rw [hr.2.2.1]
        dsimp only [TickState.setNextT]
        simp
      · rw [hr.2.2.2]
        dsimp only [TickState.setNextT]
        rw [GetNext_SetNext, if_neg]
        rintro ⟨-, rfl, rfl⟩
        rw [hget] at hst
        exact absurd hst (by decide)
    · dsimp only [TickState.setNextT]
      refine ⟨by simp, by simp, by simp, ?_⟩
      rw [GetNext_SetNext, if_neg]
      rintro ⟨-, rfl, rfl⟩
      rw [hget] at hst
      exact absurd hst (by decide)
    · exact ⟨rfl, rfl, rfl, rfl⟩
  | Water =>
    dsimp only
    split_ifs with h1 h2
    · dsimp only [TickState.setNextT]
      refine ⟨by simp, by simp, by simp, ?_⟩
      rw [GetNext_SetNext, if_neg]
      rintro ⟨-, rfl, rfl⟩
      rw [hget] at hst
      exact absurd hst (by decide)
    · dsimp only [TickState.setNextT]
      refine ⟨by simp, by simp, by simp, ?_⟩
      rw [GetNext_SetNext, if_neg]
      rintro ⟨-, rfl, rfl⟩
      rw [hget] at hst
      exact absurd hst (by decide)
    · exact ⟨rfl, rfl, rfl, rfl⟩
  | Ice =>
    dsimp only
    split_ifs with h1
    · dsimp only [TickState.setNextT]
      refine ⟨by simp, by simp, by simp, ?_⟩
      rw [GetNext_SetNext, if_neg]
      rintro ⟨-, rfl, rfl⟩
      rw [hget] at hst
      exact absurd hst (by decide)
    · exact ⟨rfl, rfl, rfl, rfl⟩
  | Steam =>
    dsimp only [TickState.setNextT, randNext]
    split_ifs with h1 h2
    · refine ⟨by simp, by simp, by simp, ?_⟩
      rw [GetNext_SetNext, if_neg]
      rintro ⟨-, rfl, rfl⟩
      rw [hget] at hst
      exact absurd hst (by decide)
    · exact ⟨rfl, rfl, rfl, rfl⟩
    · exact ⟨rfl, rfl, rfl, rfl⟩
  | Fire =>
    dsimp only [TickState.setNextT, randNext]
    split_ifs with h1 h2 h3 h4
    · have hr := ReplaceNeighbor_frame ts x y Particle.Oil Particle.Fire tx ty
        (by decide) hst
      refine ⟨?_, ?_, ?_, ?_⟩
      · dsimp only
        rw [show ((ts.ReplaceNeighbor x y Particle.Oil Particle.Fire).g.SetNext x y
            Particle.Smoke).grid = (ts.ReplaceNeighbor x y Particle.Oil Particle.Fire).g.grid
          from by simp, hr.1]
      · dsimp only
        rw [show ((ts.ReplaceNeighbor x y Particle.Oil Particle.Fire).g.SetNext x y
            Particle.Smoke).width = (ts.ReplaceNeighbor x y Particle.Oil Particle.Fire).g.width
          from by simp, hr.2.1]
      · dsimp only
        rw [show ((ts.ReplaceNeighbor x y Particle.Oil Particle.Fire).g.SetNext x y
            Particle.Smoke).height =
            (ts.ReplaceNeighbor x y Particle.Oil Particle.Fire).g.height
          from by simp, hr.2.2.1]
      · dsimp only
        rw [GetNext_SetNext, if_neg, hr.2.2.2]
        rintro ⟨-, rfl, rfl⟩
        rw [hget] at hst
        exact absurd hst (by decide)
    · have hr := ReplaceNeighbor_frame ts x y Particle.Oil Particle.Fire tx ty
        (by decide) hst
      exact ⟨hr.1, hr.2.1, hr.2.2.1, hr.2.2.2⟩
    · have hst1 : (TickState.mk (ts.g.SetNext x y Particle.Smoke) ts.rng).g.Get tx ty =
          Particle.Stone := by
        simpa using hst
      have hr := ReplaceNeighbor_frame (TickState.mk (ts.g.SetNext x y Particle.Smoke) ts.rng)
        x y Particle.Water Particle.Steam tx ty (by decide) hst1
      refine ⟨?_, ?_, ?_, ?_⟩
      · rw [hr.1]
        simp
      · rw [hr.2.1]
        simp
      · rw [hr.2.2.1]
        simp
      · rw [hr.2.2.2]
        dsimp only
        rw [GetNext_SetNext, if_neg]
        rintro ⟨-, rfl, rfl⟩
        rw [hget] at hst
        exact absurd hst (by decide)
    · refine ⟨by simp, by simp, by simp, ?_⟩
      rw [GetNext_SetNext, if_neg]
      rintro ⟨-, rfl, rfl⟩
      rw [hget] at hst
      exact absurd hst (by decide)
    · exact ⟨rfl, rfl, rfl, rfl⟩
  | Acid =>
    exact acidScan_frame neighborOffsets ts x y tx ty (by rw [hget]; decide) hst
  | Oil =>
    dsimp only
    split_ifs with h1
    · dsimp only [TickState.setNextT]
      refine ⟨by simp, by simp, by simp, ?_⟩
      rw [GetNext_SetNext, if_neg]
      rintro ⟨-, rfl, rfl⟩
      rw [hget] at hst
      exact absurd hst (by decide)
    · exact ⟨rfl, rfl, rfl, rfl⟩

theorem processCell_frame (ts : TickState) (x y tx ty : Int)
    (hst : ts.g.Get tx ty = Particle.Stone) :
    (processCell ts x y).g.grid = ts.g.grid ∧
    (processCell ts x y).g.width = ts.g.width ∧
    (processCell ts x y).g.height = ts.g.height ∧
    (processCell ts x y).g.GetNext tx ty = ts.g.GetNext tx ty := by
  unfold processCell
  dsimp only
  have hpr := ProcessReactions_frame ts x y tx ty hst
  have hg2 : ∀ u v : Int, (ProcessReactions ts x y).2.g.Get u v = ts.g.Get u v :=
    fun u v => Get_congr hpr.2.1 hpr.2.2.1 hpr.1 u v
  by_cases he : ts.g.Get x y = Particle.Empty
  · rw [if_pos he]
    exact ⟨rfl, rfl, rfl, rfl⟩
  · rw [if_neg he]
    by_cases hfr : (ProcessReactions ts x y).1 = true
    · rw [if_pos hfr]
      exact hpr
    · rw [if_neg hfr]
      have hcomp : ∀ X : TickState,
          X.g.grid = (ProcessReactions ts x y).2.g.grid →
          X.g.width = (ProcessReactions ts x y).2.g.width →
          X.g.height = (ProcessReactions ts x y).2.g.height →
          X.g.GetNext tx ty = (ProcessReactions ts x y).2.g.GetNext tx ty →
          X.g.grid = ts.g.grid ∧ X.g.width = ts.g.width ∧ X.g.height = ts.g.height ∧
            X.g.GetNext tx ty = ts.g.GetNext tx ty := by
        intro X a b c d
        exact ⟨a.trans hpr.1, b.trans hpr.2.1, c.trans hpr.2.2.1, d.trans hpr.2.2.2⟩
      cases hget : ts.g.Get x y with
      | Empty => exact absurd hget he
      | Stone => exact hpr
      | Obsidian => exact hpr
      | Ice => exact hpr
      | Sand =>
        have hf := UpdateSand_frame (ProcessReactions ts x y).2 x y tx ty
          (by rw [hg2 x y, hget]; decide) (by rw [hg2 tx ty]; exact hst)
        exact hcomp _ hf.1 hf.2.1 hf.2.2.1 hf.2.2.2
      | Water =>
        have hf := UpdateWater_frame (ProcessReactions ts x y).2 x y tx ty
          (by rw [hg2 x y, hget]; decide) (by rw [hg2 tx ty]; exact hst)
        exact hcomp _ hf.1 hf.2.1 hf.2.2.1 hf.2.2.2
      | Lava =>
        have hf := UpdateLava_frame (ProcessReactions ts x y).2 x y tx ty
          (by rw [hg2 x y, hget]; decide) (by rw [hg2 tx ty]; exact hst)
        exact hcomp _ hf.1 hf.2.1 hf.2.2.1 hf.2.2.2
      | Steam =>
        have hf := UpdateSteam_frame (ProcessReactions ts x y).2 x y tx ty
          (by rw [hg2 x y, hget]; decide) (by rw [hg2 tx ty]; exact hst)
        exact hcomp _ hf.1 hf.2.1 hf.2.2.1 hf.2.2.2
      | Acid =>
        have hf := UpdateAcid_frame (ProcessReactions ts x y).2 x y tx ty
          (by rw [hg2 x y, hget]; decide) (by rw [hg2 tx ty]; exact hst)
        exact hcomp _ hf.1 hf.2.1 hf.2.2.1 hf.2.2.2
      | Oil =>
        have hf := UpdateOil_frame (ProcessReactions ts x y).2 x y tx ty
          (by rw [hg2 x y, hget]; decide) (by rw [hg2 tx ty]; exact hst)
        exact hcomp _ hf.1 hf.2.1 hf.2.2.1 hf.2.2.2
      | Fire =>
        have hf := UpdateFire_frame (ProcessReactions ts x y).2 x y tx ty
          (by rw [hg2 x y, hget]; decide) (by rw [hg2 tx ty]; exact hst)
        exact hcomp _ hf.1 hf.2.1 hf.2.2.1 hf.2.2.2
      | Smoke =>
        have hf := UpdateSmoke_frame (ProcessReactions ts x y).2 x y tx ty
          (by rw [hg2 x y, hget]; decide) (by rw [hg2 tx ty]; exact hst)
        exact hcomp _ hf.1 hf.2.1 hf.2.2.1 hf.2.2.2

theorem runScan_frame :
    ∀ (cs : List (Int × Int)) (ts : TickState) (tx ty : Int),
      ts.g.Get tx ty = Particle.Stone →
      (runScan ts cs).g.grid = ts.g.grid ∧
      (runScan ts cs).g.width = ts.g.width ∧
      (runScan ts cs).g.height = ts.g.height ∧
      (runScan ts cs).g.GetNext tx ty = ts.g.GetNext tx ty
  | [], _, _, _, _ => ⟨rfl, rfl, rfl, rfl⟩
  | c :: cs, ts, tx, ty, hst => by
    have hpc := processCell_frame ts c.1 c.2 tx ty hst
    have hst2 : (processCell ts c.1 c.2).g.Get tx ty = Particle.Stone := by
      rw [Get_congr hpc.2.1 hpc.2.2.1 hpc.1]
      exact hst
    have ih := runScan_frame cs (processCell ts c.1 c.2) tx ty hst2
    have hstep : runScan ts (c :: cs) = runScan (processCell ts c.1 c.2) cs := rfl
    rw [hstep]
    exact ⟨ih.1.trans hpc.1, ih.2.1.trans hpc.2.1, ih.2.2.1.trans hpc.2.2.1,
      ih.2.2.2.trans hpc.2.2.2⟩

theorem Get_neg_stone (G : ParticleGrid) : G.Get (-1) (-1) = Particle.Stone := by
  unfold ParticleGrid.Get
  rw [if_pos]
  unfold oob
  left
  decide

theorem UpdateTemperature_width (G : ParticleGrid) : G.UpdateTemperature.width = G.width :=
  tempFold_width _ _

theorem UpdateTemperature_height (G : ParticleGrid) : G.UpdateTemperature.height = G.height :=
  tempFold_height _ _

theorem UpdateTemperature_grid (G : ParticleGrid) : G.UpdateTemperature.grid = G.grid :=
  tempFold_grid _ _

theorem UpdateTemperature_nextGrid (G : ParticleGrid) :
    G.UpdateTemperature.nextGrid = G.nextGrid :=
  tempFold_nextGrid _ _

theorem doTick_boundary (g : ParticleGrid) (rng : List Nat) (hb : bdryStone g) :
    bdryStone (doTick g rng) ∧ bdryStoneNext (doTick g rng) := by
  have hg2f := CreateGroundNext_fields { g with nextGrid := g.grid, hnext := g.hgrid }
  have hQ := runScan_frame (moveCoords g.width g.height)
    (TickState.mk (ParticleGrid.CreateGroundNext
      { g with nextGrid := g.grid, hnext := g.hgrid }) rng) (-1) (-1) (Get_neg_stone _)
  have hdt : doTick g rng =
      ((runScan (TickState.mk (ParticleGrid.CreateGroundNext
        { g with nextGrid := g.grid, hnext := g.hgrid }) rng)
        (moveCoords g.width g.height)).g.UpdateTemperature).swapBuffers := rfl
  have hw : (doTick g rng).width = g.width := by
    rw [hdt, swapBuffers_width, UpdateTemperature_width]
    exact hQ.2.1.trans hg2f.2.1
  have hh : (doTick g rng).height = g.height := by
    rw [hdt, swapBuffers_height, UpdateTemperature_height]
    exact hQ.2.2.1.trans hg2f.2.2.1
  have key : ∀ x y : Int, inB (doTick g rng) x y → boundaryCell (doTick g rng) x y →
      (doTick g rng).Get x y = Particle.Stone ∧
        (doTick g rng).GetNext x y = Particle.Stone := by
    intro x y hin hbd
    have hin2 : inB g x y := by
      unfold inB at hin ⊢
      rw [hw, hh] at hin
      exact hin
    have hbd2 : boundaryCell g x y := by
      unfold boundaryCell at hbd ⊢
      rw [hw, hh] at hbd
      exact hbd
    have hstG2 : (ParticleGrid.CreateGroundNext
        { g with nextGrid := g.grid, hnext := g.hgrid }).Get x y = Particle.Stone := by
      rw [Get_congr hg2f.2.1 hg2f.2.2.1 hg2f.1 x y]
      exact hb x y hin2 hbd2
    have hscan := runScan_frame (moveCoords g.width g.height)
      (TickState.mk (ParticleGrid.CreateGroundNext
        { g with nextGrid := g.grid, hnext := g.hgrid }) rng) x y hstG2
    constructor
    · rw [hdt, Get_swapBuffers,
        GetNext_congr (UpdateTemperature_width _) (UpdateTemperature_height _)
          (UpdateTemperature_nextGrid _) x y,
        hscan.2.2.2]
      exact CreateGroundNext_GetNext_boundary _ x y hin2 hbd2
    · rw [hdt, GetNext_swapBuffers,
        Get_congr (UpdateTemperature_width _) (UpdateTemperature_height _)
          (UpdateTemperature_grid _) x y,
        Get_congr hscan.2.1 hscan.2.2.1 hscan.1 x y]
      exact hstG2
  exact ⟨fun x y a b => (key x y a b).1, fun x y a b => (key x y a b).2⟩

theorem reachable_invariant (g : ParticleGrid) (h : Reachable g) :
    bdryStone g ∧ (bdryStoneNext g ∨ nextBlank g) := by
  induction h with
  | init w h => exact ⟨mkGrid_bdryStone w h, Or.inr (mkGrid_nextBlank w h)⟩
  | update g gs rng _ ih =>
    rcases Update_fst_cases g gs rng with he | he
    · rw [he]
      exact ih
    · rw [he]
      have hd := doTick_boundary g rng ih.1
      exact ⟨hd.1, Or.inl hd.2⟩
  | clear g _ _ => exact ⟨Clear_bdryStone g, Or.inr (Clear_nextBlank g)⟩
  | add g x y p brush _ ih => exact AddParticle_pres g x y p brush ih
  | load g lines _ _ => exact LoadFromFile_pres g lines

set_option maxRecDepth 20000 in
/-- C3, corrected: in every reachable state the protected boundary of the
CURRENT buffer is Stone, but the next buffer's boundary is Stone only once a
tick has stamped it: right after construction, `Clear` or a file load the next
buffer is entirely Empty, not Stone. Every executed tick (`doTick`) re-stamps
the next-buffer boundary before rule evaluation and leaves both buffers with
Stone boundaries, and boundary cells are never user-settable (`Set` is a
no-op there). -/
theorem C3_boundary_invariant (g : ParticleGrid) (h : Reachable g) :
    bdryStone g ∧
    (bdryStoneNext g ∨ nextBlank g) ∧
    (∀ rng : List Nat, bdryStone (doTick g rng) ∧ bdryStoneNext (doTick g rng)) ∧
    (∀ (x y : Int) (p : Particle), boundaryCell g x y → g.Set x y p = g) := by
  have hi := reachable_invariant g h
  exact ⟨hi.1, hi.2, fun rng => doTick_boundary g rng hi.1,
    fun x y p hbd => Set_of_boundary p hbd⟩

/-- C3 witness: the invariant applied to the freshly constructed 6×6 grid. -/
theorem C3_boundary_invariant_witness :
    Reachable (mkGrid 6 6) ∧
    (bdryStone (mkGrid 6 6) ∧
      (bdryStoneNext (mkGrid 6 6) ∨ nextBlank (mkGrid 6 6)) ∧
      (∀ rng : List Nat, bdryStone (doTick (mkGrid 6 6) rng) ∧
        bdryStoneNext (doTick (mkGrid 6 6) rng)) ∧
      (∀ (x y : Int) (p : Particle), boundaryCell (mkGrid 6 6) x y →
        (mkGrid 6 6).Set x y p = mkGrid 6 6)) :=
  ⟨Reachable.init 6 6, C3_boundary_invariant (mkGrid 6 6) (Reachable.init 6 6)⟩

set_option maxRecDepth 20000 in
/-- C3 counterexample to the original claim: in the freshly constructed 6×6
grid — a reachable state in which no tick has run yet — the boundary cell
(0, 5) is Stone in the current buffer but Empty in the next buffer, while the
claim requires Stone in BOTH buffers in every reachable state. -/
theorem C3_initial_next_buffer_not_stone :
    inB (mkGrid 6 6) 0 5 ∧ boundaryCell (mkGrid 6 6) 0 5 ∧
    (mkGrid 6 6).Get 0 5 = Particle.Stone ∧
    (mkGrid 6 6).GetNext 0 5 = Particle.Empty := by
  decide

end ParticleSim
